import Mathlib

/-
Verification development for the blog-ueditor backend (src/backend/app.py).

The Python service is shallowly embedded below: pure helpers are translated
directly; the network is modelled as an oracle assigning an outcome to every
fetch attempt; the file system is modelled as an association list from file
names to byte contents; the in-process task store is a pair of association
lists mirroring the two module-level dicts.  Python sets (used only in
extract_image_urls) are modelled as insertion-deduplicated lists; since
CPython set iteration order is unspecified, only order-independent facts
are proved about that function.
-/

set_option maxHeartbeats 1000000

namespace BlogUeditor

/-! ## Generic list/string helpers (Python primitive semantics) -/

/-- Whether the first list is a prefix of the second (Python str.startswith). -/
def startsWithList : List Char → List Char → Bool
  | [], _ => true
  | _ :: _, [] => false
  | a :: as, b :: bs => a == b && startsWithList as bs

/-- Case-insensitive prefix test (for re.IGNORECASE literal matching). -/
def ciPrefixAt : List Char → List Char → Bool
  | [], _ => true
  | _ :: _, [] => false
  | a :: as, b :: bs => (a.toLower == b.toLower) && ciPrefixAt as bs

/-- Python str.startswith on strings. -/
def pyStartsWith (s pat : String) : Bool :=
  startsWithList pat.toList s.toList

/-- Python str.split(sep) for a single-character separator. -/
def splitOnChar (sep : Char) : List Char → List (List Char)
  | [] => [[]]
  | a :: as =>
    let r := splitOnChar sep as
    if a == sep then [] :: r
    else
      match r with
      | h :: t => (a :: h) :: t
      | [] => [[a]]

/-- Drop matching characters from the end of a list. -/
def dropEndWhile (p : Char → Bool) (l : List Char) : List Char :=
  (l.reverse.dropWhile p).reverse

/-- Python str.strip with an arbitrary character predicate. -/
def pyStrip (p : Char → Bool) (l : List Char) : List Char :=
  dropEndWhile p (l.dropWhile p)

/-- Replace every non-overlapping occurrence of `pat` by `rep`, scanning left
to right (the behaviour of re.sub with a re.escape'd pattern and of
str.replace).  Fuel-driven so that the kernel can evaluate it; fuel equal to
the input length always suffices because each step consumes at least one
character. -/
def replaceAllFuel (pat rep : List Char) : Nat → List Char → List Char
  | 0, l => l
  | _ + 1, [] => []
  | f + 1, c :: cs =>
    if !pat.isEmpty && startsWithList pat (c :: cs) then
      rep ++ replaceAllFuel pat rep f ((c :: cs).drop pat.length)
    else
      c :: replaceAllFuel pat rep f cs

/-- String-level wrapper for `replaceAllFuel`. -/
def replaceAllStr (s pat rep : String) : String :=
  String.mk (replaceAllFuel pat.toList rep.toList s.toList.length s.toList)

/-- Map with the element's position, starting at `start`. -/
def mapWithIndex (f : Nat → α → β) : Nat → List α → List β
  | _, [] => []
  | i, a :: as => f i a :: mapWithIndex f (i + 1) as

/-- Python str.zfill restricted to digit strings. -/
def zfill (s : String) (w : Nat) : String :=
  if w ≤ s.length then s
  else String.mk (List.replicate (w - s.length) '0') ++ s

/-- Number of bytes of the UTF-8 encoding of a character list
(len(s.encode('utf-8'))). -/
def utf8LenList : List Char → Nat
  | [] => 0
  | c :: cs => c.utf8Size + utf8LenList cs

/-- Number of bytes of the UTF-8 encoding of a string. -/
def utf8Len (s : String) : Nat := utf8LenList s.toList

/-! ## Association lists (Python dict semantics: lookup / assign / delete) -/

/-- First value bound to a key (d.get(k)). -/
def lookupA (l : List (String × α)) (k : String) : Option α :=
  ((l.find? fun p => p.1 == k).map fun p => p.2)

/-- Python dict assignment d[k] = v: overwrite in place if present, else
append.  When the key occurs several times (impossible for lists built only
by `setA`), every occurrence is overwritten, keeping lookups unambiguous. -/
def setA (l : List (String × α)) (k : String) (v : α) : List (String × α) :=
  if (l.find? fun p => p.1 == k).isSome then
    l.map fun p => if p.1 == k then (k, v) else p
  else
    l ++ [(k, v)]

/-- Python dict deletion del d[k] / d.pop(k, None). -/
def eraseA (l : List (String × α)) (k : String) : List (String × α) :=
  l.filter fun p => !(p.1 == k)

/-! ## Configuration constants (app.py lines 27-52) -/

def EXPORT_EXPIRY_SECONDS : Nat := 3600

/-- Retries beyond the first request. -/
def IMAGE_DOWNLOAD_RETRY_COUNT : Nat := 2

/-- Base retry delay; the source value is 0.6 s, modelled in milliseconds. -/
def IMAGE_DOWNLOAD_RETRY_DELAY_MS : Nat := 600

def MAX_HTML_SIZE : Nat := 2 * 1024 * 1024

def MAX_IMAGES_COUNT : Nat := 200

/-! ## Data model (app.py lines 55-196) -/

/-- CleanMode enum. -/
inductive CleanMode where
  | safe
  | aggressive
deriving DecidableEq, Repr

/-- FailedImageStrategy enum. -/
inductive FailedImageStrategy where
  | keep_remote
  | remove
deriving DecidableEq, Repr

/-- ExportStatus enum. -/
inductive ExportStatus where
  | queued
  | processing
  | completed
  | failed
  | expired
deriving DecidableEq, Repr

/-- ExportOptions model. -/
structure ExportOptions where
  download_images : Bool := true
  rewrite_failed_images : FailedImageStrategy := .keep_remote
deriving DecidableEq, Repr

/-- ImageInfo model; `status` keeps the source's string values
("pending" / "downloading" / "downloaded" / "failed"). -/
structure ImageInfo where
  url : String
  filename : Option String := none
  status : String := "pending"
  size : Option Nat := none
  error : Option String := none
  retry_count : Nat := 0
deriving DecidableEq, Repr

/-- ExportProgress model. -/
structure ExportProgress where
  done : Nat := 0
  total : Nat := 0
deriving DecidableEq, Repr

/-- ExportStats model. -/
structure ExportStats where
  images_found : Nat := 0
  images_downloaded : Nat := 0
  images_failed : Nat := 0
  total_size : Nat := 0
deriving DecidableEq, Repr

/-- ExportTask model; timestamps are seconds as natural numbers. -/
structure ExportTask where
  id : String
  status : ExportStatus := .queued
  progress : ExportProgress := {}
  stats : ExportStats := {}
  created_at : Nat
  expires_at : Nat
  mode : CleanMode := .safe
  html : String := ""
  processed_html : Option String := none
  images : List ImageInfo := []
  options : ExportOptions := {}
  error_message : Option String := none
deriving DecidableEq, Repr

/-- The two module-level registries (export_tasks, idempotency_records). -/
structure ServerState where
  export_tasks : List (String × ExportTask) := []
  idempotency_records : List (String × String) := []
deriving DecidableEq, Repr

/-- Manifest payload (task id, mode, creation time, per-asset records,
aggregate stats). -/
structure ManifestModel where
  export_id : String
  mode : CleanMode
  created_at : Nat
  images : List ImageInfo
  stats : ExportStats
deriving DecidableEq, Repr

/-- Outcome of one HTTP GET attempt, as distinguished by the except-clauses
of download_single_image: success carries the content-type header and body
bytes; the error constructors correspond to httpx.TimeoutException,
httpx.HTTPStatusError (with status code), httpx.RequestError, and any other
exception. -/
inductive FetchOutcome where
  | success (contentType : String) (body : List Nat)
  | timeout
  | httpError (status : Nat)
  | requestError (msg : String)
  | otherError (msg : String)
deriving DecidableEq, Repr

/-- Result of one asset-resolution call: the ImageInfo record, the sequence
of sleeps performed between attempts, and the file written (bare name plus
byte content), if any. -/
structure FetchResult where
  info : ImageInfo
  delays : List Nat := []
  written : Option (String × List Nat) := none
deriving DecidableEq, Repr

/-! ## get_file_extension (app.py lines 369-402) -/

/-- Recognized image extensions. -/
def IMAGE_EXTS : List String :=
  [".jpg", ".jpeg", ".png", ".gif", ".webp", ".svg", ".bmp", ".ico"]

/-- Content-type to extension table, in source (dict insertion) order. -/
def TYPE_MAP : List (String × String) :=
  [("image/jpeg", ".jpg"), ("image/png", ".png"), ("image/gif", ".gif"),
   ("image/webp", ".webp"), ("image/svg+xml", ".svg"), ("image/bmp", ".bmp"),
   ("image/x-icon", ".ico")]

/-- Whether `sub` occurs as a contiguous substring of `l`
(Python `sub in s`). -/
def listContainsSub (sub : List Char) : List Char → Bool
  | [] => sub.isEmpty
  | c :: cs => startsWithList sub (c :: cs) || listContainsSub sub cs

/-- get_file_extension: extension from the URL path suffix when it is a
recognized image extension, else from the content type, else ".jpg".
`content_type` is a plain string; "" plays the role of Python's falsy
default. -/
def get_file_extension (url : String) (content_type : String) : String :=
  let url_path := ((splitOnChar '#' (((splitOnChar '?' url.toList).headD []))).headD [])
  let lastComp := (splitOnChar '/' url_path).getLastD []
  let fromUrl : Option String :=
    if lastComp.contains '.' then
      let ext := String.mk ('.' :: (((splitOnChar '.' url_path).getLastD []).map Char.toLower))
      if IMAGE_EXTS.contains ext then some ext else none
    else none
  match fromUrl with
  | some e => e
  | none =>
    if content_type ≠ "" then
      match TYPE_MAP.find? fun p => listContainsSub p.1.toList content_type.toList with
      | some p => p.2
      | none => ".jpg"
    else ".jpg"

/-! ## extract_data_images (app.py lines 300-318)

The pattern `data:image/[^;]+;base64,[A-Za-z0-9+/=\\s]+` (re.IGNORECASE) is
implemented directly: note that in the source the `\\s` inside the raw-string
character class denotes a literal backslash plus the letter `s`, so actual
whitespace is *not* part of the payload class. -/

/-- Characters matched by the payload character class of the data-URI
pattern. -/
def isB64MatchChar (c : Char) : Bool :=
  c.isAlpha || c.isDigit || c == '+' || c == '/' || c == '=' || c == '\\'

/-- Try to match the data-URI pattern at the head of `l`; on success return
the matched text and the remaining input. -/
def tryDataImageMatch (l : List Char) : Option (List Char × List Char) :=
  if ciPrefixAt "data:image/".toList l then
    let afterPre := l.drop 11
    let mt := afterPre.takeWhile fun c => !(c == ';')
    if mt.isEmpty then none
    else
      let afterMt := afterPre.drop mt.length
      if ciPrefixAt ";base64,".toList afterMt then
        let payload := (afterMt.drop 8).takeWhile isB64MatchChar
        if payload.isEmpty then none
        else
          let k := 11 + mt.length + 8 + payload.length
          some (l.take k, l.drop k)
      else none
  else none

/-- Left-to-right non-overlapping scan (re.finditer).  Fuel-driven for kernel
evaluability; fuel equal to the input length suffices. -/
def scanDataImages : Nat → List Char → List String
  | 0, _ => []
  | _ + 1, [] => []
  | f + 1, c :: cs =>
    match tryDataImageMatch (c :: cs) with
    | some mr => String.mk mr.1 :: scanDataImages f mr.2
    | none => scanDataImages f cs

/-- extract_data_images: every data-URI match, in discovery order, with no
de-duplication. -/
def extract_data_images (html : String) : List String :=
  scanDataImages html.toList.length html.toList

/-! ## extract_image_urls (app.py lines 224-297)

The eight regular expressions produce a sequence of raw captured strings;
the regex engine itself is not modelled, so the post-processing is defined
over an arbitrary capture sequence.  `add_url` and the set insertion are
translated exactly; the Python set is modelled as an insertion-deduplicated
list and only order-independent facts are proved about the result. -/

/-- HTML-entity decoding plus quote/whitespace stripping performed by
add_url. -/
def decode_reference (url : String) : String :=
  let d := replaceAllStr url "&amp;" "&"
  let d := replaceAllStr d "&quot;" "\""
  let d := replaceAllStr d "&#39;" "\x27"
  let d := replaceAllStr d "&lt;" "<"
  let d := replaceAllStr d "&gt;" ">"
  String.mk (pyStrip (fun c => c == '"' || c == '\x27') (pyStrip Char.isWhitespace d.toList))

/-- Set insertion, modelled as append-if-absent. -/
def dedupAdd (l : List String) (u : String) : List String :=
  if l.contains u then l else l ++ [u]

/-- add_url: skip empty input, decode, then add unless empty or a data: URI. -/
def add_url (acc : List String) (raw : String) : List String :=
  if raw = "" then acc
  else
    let d := decode_reference raw
    if d ≠ "" && !(pyStartsWith d "data:") then dedupAdd acc d else acc

/-- extract_image_urls over the raw captures of the eight patterns. -/
def extract_image_urls_from (captures : List String) : List String :=
  captures.foldl add_url []

/-! ## base64 decoding (base64.b64decode, strict then lenient) -/

/-- Index of a character in the standard base64 alphabet. -/
def b64Index (c : Char) : Option Nat :=
  if 'A' ≤ c ∧ c ≤ 'Z' then some (c.toNat - 'A'.toNat)
  else if 'a' ≤ c ∧ c ≤ 'z' then some (c.toNat - 'a'.toNat + 26)
  else if '0' ≤ c ∧ c ≤ '9' then some (c.toNat - '0'.toNat + 52)
  else if c = '+' then some 62
  else if c = '/' then some 63
  else none

/-- Whether a character belongs to the base64 alphabet. -/
def isB64AlphaChar (c : Char) : Bool := (b64Index c).isSome

/-- Decode a list of sextets into bytes; a trailing group of 2 or 3 sextets
contributes 1 or 2 bytes. -/
def b64DecodeChunks : List Nat → List Nat
  | a :: b :: c :: d :: rest =>
    (a * 4 + b / 16) :: ((b % 16) * 16 + c / 4) :: ((c % 4) * 64 + d) :: b64DecodeChunks rest
  | [a, b] => [a * 4 + b / 16]
  | [a, b, c] => [a * 4 + b / 16, (b % 16) * 16 + c / 4]
  | _ => []

/-- Sextet values of the alphabet characters of `l`. -/
def b64Sextets (l : List Char) : List Nat :=
  l.filterMap b64Index

/-- Strict decoding (validate=True): any character outside the alphabet and
padding is refused, and the padded length must be a multiple of four. -/
def b64decode_strict (s : String) : Except String (List Nat) :=
  let l := s.toList
  if l.any fun c => !(isB64AlphaChar c || c == '=') then
    .error "Non-base64 digit found"
  else if l.length % 4 ≠ 0 then
    .error "Incorrect padding"
  else
    let data := l.filter fun c => !(c == '=')
    if data.length % 4 = 1 then
      .error "Invalid base64-encoded string: number of data characters cannot be 1 more than a multiple of 4"
    else .ok (b64DecodeChunks (b64Sextets data))

/-- Lenient decoding (validate=False): characters outside the alphabet and
padding are discarded before decoding. -/
def b64decode_lenient (s : String) : Except String (List Nat) :=
  let kept := s.toList.filter fun c => isB64AlphaChar c || c == '='
  if kept.length % 4 ≠ 0 then
    .error "Incorrect padding"
  else
    let data := kept.filter fun c => !(c == '=')
    if data.length % 4 = 1 then
      .error "Invalid base64-encoded string: number of data characters cannot be 1 more than a multiple of 4"
    else .ok (b64DecodeChunks (b64Sextets data))

/-- Strict validation first, falling back to lenient decoding. -/
def b64decode_dual (s : String) : Except String (List Nat) :=
  match b64decode_strict s with
  | .ok b => .ok b
  | .error _ => b64decode_lenient s

/-! ## Sequential filename scheme (shared by both fetch entry points) -/

/-- pad_width: `max(len(str(total)) if total > 0 else 2, 2)`. -/
def pad_width (total : Nat) : Nat :=
  max (if 0 < total then (toString total).length else 2) 2

/-- Local file name for ordinal `index` out of `total` assets. -/
def ordinal_filename (index total : Nat) (ext : String) : String :=
  zfill (toString index) (pad_width total) ++ ext

/-! ## save_data_image (app.py lines 321-366) -/

/-- Split at the first occurrence of a character (str.split(c, 1) when the
character occurs). -/
def splitOnce (s : String) (c : Char) : Option (String × String) :=
  let l := s.toList
  let a := l.takeWhile fun x => !(x == c)
  let b := l.drop a.length
  match b with
  | [] => none
  | _ :: rest => some (String.mk a, String.mk rest)

/-- Failed ImageInfo produced by the except-branch of save_data_image. -/
def dataImageFail (data_url msg : String) : FetchResult :=
  { info := { url := data_url, status := "failed", error := some msg, retry_count := 1 } }

/-- save_data_image: parse the `media-type;base64,data` form, strip
whitespace, decode (strict first, then lenient), write the bytes, and record
the outcome.  Any parse or decode failure yields a failed record with
attemptCount 1. -/
def save_data_image (data_url : String) (index total : Nat) : FetchResult :=
  match splitOnce data_url ',' with
  | none => dataImageFail data_url "not enough values to unpack (expected 2, got 1)"
  | some (header, payload) =>
    let media_type := replaceAllStr (String.mk ((splitOnChar ';' header.toList).headD [])) "data:" ""
    let ext := get_file_extension "" media_type
    let filename := ordinal_filename index total ext
    let payload := String.mk (payload.toList.filter fun c => !c.isWhitespace)
    match b64decode_dual payload with
    | .error e => dataImageFail data_url e
    | .ok file_bytes =>
      { info := { url := data_url, filename := some ("images/" ++ filename),
                  status := "downloaded", size := some file_bytes.length,
                  retry_count := 1 },
        written := some (filename, file_bytes) }

/-! ## download_single_image (app.py lines 507-592) -/

/-- `last_error or "Download failed"` (Python truthiness: None and "" both
fall back). -/
def pyOrError (le : Option String) : String :=
  match le with
  | some s => if s = "" then "Download failed" else s
  | none => "Download failed"

/-- Failed FetchResult at loop exit. -/
def downloadFail (url : String) (le : Option String) (made : Nat) (ds : List Nat) : FetchResult :=
  { info := { url := url, status := "failed", error := some (pyOrError le), retry_count := made },
    delays := ds }

/-- Successful FetchResult: extension from URL else content type, sequential
zero-padded name, byte count recorded. -/
def downloadSuccess (url : String) (index total : Nat) (ct : String) (body : List Nat)
    (made : Nat) (ds : List Nat) : FetchResult :=
  let filename := ordinal_filename index total (get_file_extension url ct)
  { info := { url := url, filename := some ("images/" ++ filename),
              status := "downloaded", size := some body.length, retry_count := made },
    delays := ds,
    written := some (filename, body) }

/-- The retry loop of download_single_image.  `remaining` counts loop
iterations still available (initially RETRY_COUNT + 1), `a` is the 0-based
attempt index, `made` the attempts already made, `le` the last observed
error, `ds` the sleeps performed so far.  Timeouts and transport errors
retry; HTTP status ≥ 500 or 429 retries; any other HTTP error or unexpected
exception breaks immediately; the sleep before the next attempt is
base × (a + 1). -/
def download_go (oc : Nat → FetchOutcome) (url : String) (index total : Nat) :
    Nat → Nat → Nat → Option String → List Nat → FetchResult
  | 0, _, made, le, ds => downloadFail url le made ds
  | r + 1, a, made, _le, ds =>
    match oc a with
    | .success ct body => downloadSuccess url index total ct body (made + 1) ds
    | .timeout =>
      if 0 < r then
        download_go oc url index total r (a + 1) (made + 1) (some "Download timeout")
          (ds ++ [IMAGE_DOWNLOAD_RETRY_DELAY_MS * (a + 1)])
      else downloadFail url (some "Download timeout") (made + 1) ds
    | .httpError s =>
      if s < 500 ∧ s ≠ 429 then
        downloadFail url (some ("HTTP " ++ toString s)) (made + 1) ds
      else if 0 < r then
        download_go oc url index total r (a + 1) (made + 1) (some ("HTTP " ++ toString s))
          (ds ++ [IMAGE_DOWNLOAD_RETRY_DELAY_MS * (a + 1)])
      else downloadFail url (some ("HTTP " ++ toString s)) (made + 1) ds
    | .requestError m =>
      if 0 < r then
        download_go oc url index total r (a + 1) (made + 1) (some ("Request error: " ++ m))
          (ds ++ [IMAGE_DOWNLOAD_RETRY_DELAY_MS * (a + 1)])
      else downloadFail url (some ("Request error: " ++ m)) (made + 1) ds
    | .otherError m => downloadFail url (some m) (made + 1) ds

/-- download_single_image: run the retry loop with a fresh attempt budget.
`oc` assigns an outcome to every attempt index. -/
def download_single_image (oc : Nat → FetchOutcome) (url : String) (index total : Nat) :
    FetchResult :=
  download_go oc url index total (IMAGE_DOWNLOAD_RETRY_COUNT + 1) 0 0 none []

/-! ## Naming & rewrite (app.py lines 405-483) -/

/-- build_url_mapping: Downloaded assets with a truthy filename map to that
filename; every other asset maps to its own URL (KEEP_REMOTE) or to ""
(REMOVE).  The dict is modelled as an association list in insertion order. -/
def build_url_mapping (images : List ImageInfo) (options : ExportOptions) :
    List (String × String) :=
  images.foldl
    (fun m img =>
      match img.filename with
      | some f =>
        if img.status == "downloaded" && f ≠ "" then setA m img.url f
        else if options.rewrite_failed_images = .keep_remote then setA m img.url img.url
        else setA m img.url ""
      | none =>
        if options.rewrite_failed_images = .keep_remote then setA m img.url img.url
        else setA m img.url "")
    []

/-- replace_image_urls: literal global substitution of each original URL,
applied only when the replacement is truthy (`if local_path:`), so an empty
replacement is skipped. -/
def replace_image_urls (html : String) (url_mapping : List (String × String)) : String :=
  url_mapping.foldl
    (fun result p => if p.2 ≠ "" then replaceAllStr result p.1 p.2 else result)
    html

/-- Document shell prefix of wrap_html_document (f-string text before
{html}); literal braces of the embedded stylesheet are written with
hexadecimal escapes. -/
def WRAP_HEAD : String :=
  "<!DOCTYPE html>\n<html lang=\"zh-CN\">\n<head>\n    <meta charset=\"UTF-8\">\n    <meta name=\"viewport\" content=\"width=device-width, initial-scale=1.0\">\n    <title>离线内容</title>\n    <style>\n        body \x7b\n            max-width: 800px;\n            margin: 0 auto;\n            padding: 20px;\n            font-family: -apple-system, BlinkMacSystemFont, \"Segoe UI\", Roboto, \"Helvetica Neue\", Arial, sans-serif;\n            line-height: 1.6;\n        \x7d\n        img \x7b\n            max-width: 100%;\n            height: auto;\n        \x7d\n    </style>\n</head>\n<body>\n"

/-- Document shell suffix of wrap_html_document. -/
def WRAP_TAIL : String := "\n</body>\n</html>"

/-- wrap_html_document: pass through content that already starts (after
stripping, case-insensitively) with a doctype declaration, else wrap it in
the standalone shell. -/
def wrap_html_document (html : String) : String :=
  if startsWithList "<!doctype".toList
      ((pyStrip Char.isWhitespace html.toList).map Char.toLower) then html
  else WRAP_HEAD ++ html ++ WRAP_TAIL

/-! ## Orchestrator: full run (process_export_task, app.py lines 595-719)

Only the asset-resolution portion is modelled (count cap, asset-list
initialization, per-asset fetch/decode with sequential ordinals); the
surrounding zip/manifest I/O of the full run does not touch the asset
records. -/

/-- The count cap of process_export_task: inline (base64) assets are kept
first; remote references fill the remaining slots. -/
def cap_images (data_image_urls image_urls : List String) : List String × List String :=
  if MAX_IMAGES_COUNT ≤ data_image_urls.length then
    (data_image_urls.take MAX_IMAGES_COUNT, [])
  else
    let remaining_slots := MAX_IMAGES_COUNT - data_image_urls.length
    if remaining_slots < image_urls.length then
      (data_image_urls, image_urls.take remaining_slots)
    else (data_image_urls, image_urls)

/-- Asset list produced by the full run after the cap: inline assets are
decoded at ordinals 1..k, remote assets fetched at ordinals k+1..n; with
downloading disabled (or no assets) every record stays pending.  `oc i` is
the attempt oracle of the i-th remote asset. -/
def process_task_images (data_image_urls image_urls : List String)
    (download_images : Bool) (oc : Nat → Nat → FetchOutcome) : List ImageInfo :=
  let dr := cap_images data_image_urls image_urls
  let total := dr.1.length + dr.2.length
  if download_images && total ≠ 0 then
    mapWithIndex (fun i u => (save_data_image u (i + 1) total).info) 0 dr.1 ++
    mapWithIndex (fun i u => (download_single_image (oc i) u (i + 1 + dr.1.length) total).info)
      0 dr.2
  else
    (dr.1 ++ dr.2).map fun u => { url := u }

/-! ## Orchestrator: selective retry (perform_retry_images, app.py 750-868) -/

/-- Placeholder record used only to state list indexing totally; every use
is guarded by an in-bounds hypothesis. -/
def dummyImage : ImageInfo := { url := "" }

/-- Working-directory and network environment of one retry run: the
`images/...` entries recoverable from the existing archive (name → size) and
the attempt oracle of each retried asset (first argument: position of the
asset in the retry list). -/
structure RetryEnv where
  archive : List (String × Nat)
  oc : Nat → Nat → FetchOutcome

/-- Re-fetch/re-decode of the k-th retried asset (list index `index`):
data URIs go through save_data_image, everything else through
download_single_image, both at ordinal index+1 of the full asset count. -/
def retryOne (env : RetryEnv) (task : ExportTask) (k index : Nat) : FetchResult :=
  let image := task.images.getD index dummyImage
  let position := index + 1
  let total := task.images.length
  if pyStartsWith image.url "data:image" then
    save_data_image image.url position total
  else
    download_single_image (env.oc k) image.url position total

/-- Apply positional updates (index, record) in order (last write wins). -/
def applyUpdates (imgs : List ImageInfo) (updates : List (Nat × ImageInfo)) : List ImageInfo :=
  updates.foldl (fun acc p => acc.set p.1 p.2) imgs

/-- Stats recomputed from scratch over the full asset list. -/
def recompute_stats (imgs : List ImageInfo) : ExportStats :=
  { images_found := imgs.length,
    images_downloaded := (imgs.filter fun img => img.status == "downloaded").length,
    images_failed := (imgs.filter fun img => img.status == "failed").length,
    total_size :=
      ((imgs.filter fun img => img.status == "downloaded").map fun img => img.size.getD 0).sum }

/-- Manifest built from a task (process_export_task / perform_retry_images /
manifest endpoints all build this same payload). -/
def manifestOf (task : ExportTask) : ManifestModel :=
  { export_id := task.id, mode := task.mode, created_at := task.created_at,
    images := task.images, stats := task.stats }

/-- The sequentially awaited fetch results of one retry run, paired with
their target indices. -/
def retryResults (env : RetryEnv) (task : ExportTask) (retry_indices : List Nat) :
    List (Nat × FetchResult) :=
  mapWithIndex (fun k index => (index, retryOne env task k index)) 0 retry_indices

/-- Files present in the fresh working directory: the archive extraction
plus every file written by a retried fetch/decode. -/
def retryDir (env : RetryEnv) (results : List (Nat × FetchResult)) : List (String × Nat) :=
  results.foldl
    (fun d p =>
      match p.2.written with
      | some w => setA d ("images/" ++ w.1) w.2.length
      | none => d)
    env.archive

/-- Size recompute from disk (file stat) for one record: assets whose file
exists get their byte size refreshed; nothing else changes. -/
def sizeRefreshOne (dir : List (String × Nat)) (img : ImageInfo) : ImageInfo :=
  match img.filename with
  | some f =>
    match lookupA dir f with
    | some sz => { img with size := some sz }
    | none => img
  | none => img

/-- perform_retry_images: restore previously downloaded files from the
archive, re-fetch only the targeted indices sequentially at their original
ordinals, rebuild the rendered document, recompute sizes from disk and all
aggregate stats, and mark the task Completed.  The caller guarantees the
archive exists (the FileNotFoundError branch is handled at the route
level before any mutation). -/
def perform_retry_images (env : RetryEnv) (task : ExportTask) (retry_indices : List Nat) :
    ExportTask × ManifestModel :=
  let total := retry_indices.length
  let results := retryResults env task retry_indices
  let dir := retryDir env results
  let images1 := applyUpdates task.images (results.map fun p => (p.1, p.2.info))
  let url_mapping := build_url_mapping images1 task.options
  let processed_html := wrap_html_document (replace_image_urls task.html url_mapping)
  let images2 := images1.map (sizeRefreshOne dir)
  let stats := recompute_stats images2
  let task' := { task with
    status := .completed,
    progress := { done := total, total := total },
    images := images2,
    stats := stats,
    processed_html := some processed_html }
  (task', manifestOf task')

/-! ## Task store sweep (cleanup_expired_tasks, app.py lines 722-747) -/

/-- cleanup_expired_tasks: drop every task past its expiry and every
idempotency record pointing at a dropped task. -/
def cleanup_expired_tasks (st : ServerState) (now : Nat) : ServerState :=
  let expired_ids := (st.export_tasks.filter fun p => p.2.expires_at < now).map fun p => p.1
  { export_tasks := st.export_tasks.filter fun p => !(p.2.expires_at < now),
    idempotency_records := st.idempotency_records.filter fun p => !(expired_ids.contains p.2) }

/-! ## Creation endpoint (create_export, app.py lines 880-973) -/

/-- Request body of the creation endpoint. -/
structure CreateInput where
  html : String
  mode : CleanMode := .safe
  options : Option ExportOptions := none

/-- Observable outcome of the creation endpoint. -/
inductive CreateResult where
  | payloadTooLarge
  | existing (id : String)
  | created (id : String)
deriving DecidableEq, Repr

/-- Fresh task as built by create_export. -/
def newTask (id : String) (now : Nat) (inp : CreateInput) : ExportTask :=
  { id := id, status := .queued, created_at := now,
    expires_at := now + EXPORT_EXPIRY_SECONDS, mode := inp.mode, html := inp.html,
    options := inp.options.getD {} }

/-- create_export: size gate, expiry sweep, idempotency-key short circuit
(purging a stale mapping), then creation of a fresh task and recording of
the key.  `newId` stands for the freshly generated uuid-based id. -/
def create_export (st : ServerState) (now : Nat) (newId : String)
    (idemKey : Option String) (inp : CreateInput) : CreateResult × ServerState :=
  if MAX_HTML_SIZE < utf8Len inp.html then (.payloadTooLarge, st)
  else
    let st1 := cleanup_expired_tasks st now
    let hit : Option String :=
      match idemKey with
      | some k =>
        match lookupA st1.idempotency_records k with
        | some tid =>
          match lookupA st1.export_tasks tid with
          | some t => if now ≤ t.expires_at then some t.id else none
          | none => none
        | none => none
      | none => none
    match hit with
    | some tid => (.existing tid, st1)
    | none =>
      -- pop the stale mapping when the key existed but did not resolve to a
      -- live task
      let st2 :=
        match idemKey with
        | some k =>
          if (lookupA st1.idempotency_records k).isSome then
            { st1 with idempotency_records := eraseA st1.idempotency_records k }
          else st1
        | none => st1
      let task := newTask newId now inp
      let st3 := { st2 with export_tasks := setA st2.export_tasks newId task }
      let st4 :=
        match idemKey with
        | some k => { st3 with idempotency_records := setA st3.idempotency_records k newId }
        | none => st3
      (.created newId, st4)

/-! ## Retry-all-failed endpoint (retry_failed_images, app.py 1088-1149) -/

/-- Observable outcome of the retry-all-failed endpoint. -/
inductive RouteResult where
  | problem (status : Nat) (title : String)
  | manifest (m : ManifestModel)
deriving DecidableEq, Repr

/-- Indices of the currently failed assets, in ascending order. -/
def failedIndices (task : ExportTask) : List Nat :=
  ((mapWithIndex (fun i img => (i, img)) 0 task.images).filter
    fun p => p.2.status == "failed").map fun p => p.1

/-- retry_failed_images: not-found / expired / conflict gates, then either
the no-op manifest (no failed assets), a missing-archive error, or a full
selective-retry run whose result replaces the stored task. -/
def retry_failed_images_route (env : RetryEnv) (archiveExists : Bool)
    (st : ServerState) (now : Nat) (export_id : String) : RouteResult × ServerState :=
  match lookupA st.export_tasks export_id with
  | none => (.problem 404 "Not Found", st)
  | some task =>
    if task.expires_at < now then
      (.problem 410 "Gone",
       { st with export_tasks := setA st.export_tasks export_id { task with status := .expired } })
    else if task.status ≠ .completed then
      (.problem 409 "Conflict", st)
    else
      let failed_indices := failedIndices task
      if failed_indices.isEmpty then
        (.manifest (manifestOf task), st)
      else if !archiveExists then
        (.problem 404 "Not Found", st)
      else
        let tm := perform_retry_images env task failed_indices
        (.manifest tm.2, { st with export_tasks := setA st.export_tasks export_id tm.1 })

/-! ## Helper lemmas -/

lemma mapWithIndex_length (f : Nat → α → β) (i : Nat) (l : List α) :
    (mapWithIndex f i l).length = l.length := by
  induction l generalizing i with
  | nil => rfl
  | cons a as ih => simp [mapWithIndex, ih]

lemma utf8LenList_replicate (n : Nat) : utf8LenList (List.replicate n 'a') = n := by
  induction n with
  | zero => rfl
  | succ n ih =>
    have ha : 'a'.utf8Size = 1 := by decide
    simp [List.replicate_succ, utf8LenList, ih, ha]
    omega

lemma utf8Len_mk (l : List Char) : utf8Len (String.mk l) = utf8LenList l := rfl

/-! ## C1 — DropReference policy -/

/-- C1: with the DropReference (REMOVE) policy the mapping does send a
failed asset's reference to the empty replacement, but applying the mapping
does not remove the reference: replace_image_urls skips falsy replacements,
leaving the document unchanged.  This contradicts the claimed (and
documented) removal behaviour; evaluation at the failing input. -/
theorem C1_drop_reference_not_removed :
    build_url_mapping
        [{ url := "http://e/a.png", status := "failed",
           error := some "HTTP 404", retry_count := 3 }]
        { rewrite_failed_images := .remove } = [("http://e/a.png", "")] ∧
    replace_image_urls "<p><img src=\"http://e/a.png\"></p>" [("http://e/a.png", "")] =
      "<p><img src=\"http://e/a.png\"></p>" := by
  refine ⟨rfl, ?_⟩
  rfl

/-! ## C6 — combined count cap -/

lemma cap_images_eq (d r : List String) :
    cap_images d r =
      if MAX_IMAGES_COUNT ≤ d.length then (d.take MAX_IMAGES_COUNT, ([] : List String))
      else (d, r.take (MAX_IMAGES_COUNT - d.length)) := by
  simp only [cap_images]
  split_ifs with h1 h2
  · rfl
  · rfl
  · rw [List.take_of_length_le (by omega)]

lemma process_task_images_length (d r : List String) (download : Bool)
    (oc : Nat → Nat → FetchOutcome) :
    (process_task_images d r download oc).length =
      (cap_images d r).1.length + (cap_images d r).2.length := by
  simp only [process_task_images]
  split
  · simp [mapWithIndex_length]
  · simp

/-- C6: the capped task never processes more than MAX_IMAGES_COUNT assets;
inline payloads fill the cap first (they are kept whole whenever they alone
are below the cap, with remote references truncated to the remaining slots);
inline payloads are cut only when they alone reach the cap, and then no
remote reference is kept; below the cap nothing is dropped. -/
theorem C6_count_cap (d r : List String) :
    (cap_images d r).1.length + (cap_images d r).2.length ≤ MAX_IMAGES_COUNT ∧
    (∀ download oc, (process_task_images d r download oc).length ≤ MAX_IMAGES_COUNT) ∧
    (d.length + r.length ≤ MAX_IMAGES_COUNT → cap_images d r = (d, r)) ∧
    (d.length < MAX_IMAGES_COUNT →
      (cap_images d r).1 = d ∧ (cap_images d r).2 = r.take (MAX_IMAGES_COUNT - d.length)) ∧
    (MAX_IMAGES_COUNT ≤ d.length →
      (cap_images d r).1 = d.take MAX_IMAGES_COUNT ∧ (cap_images d r).2 = []) ∧
    ((cap_images d r).1 ≠ d → (cap_images d r).2 = []) := by
  have hcap := cap_images_eq d r
  have hsum : (cap_images d r).1.length + (cap_images d r).2.length ≤ MAX_IMAGES_COUNT := by
    by_cases h1 : MAX_IMAGES_COUNT ≤ d.length
    · rw [if_pos h1] at hcap
      rw [hcap]
      simp [List.length_take]
    · rw [if_neg h1] at hcap
      rw [hcap]
      simp only [List.length_take]
      omega
  refine ⟨hsum, ?_, ?_, ?_, ?_, ?_⟩
  · intro download oc
    rw [process_task_images_length]
    exact hsum
  · intro h
    by_cases h1 : MAX_IMAGES_COUNT ≤ d.length
    · rw [if_pos h1] at hcap
      have hd : d.length = MAX_IMAGES_COUNT := by omega
      have hr : r = [] := by
        have : r.length = 0 := by omega
        exact List.length_eq_zero.mp this
      rw [hcap, List.take_of_length_le (by omega), hr]
    · rw [if_neg h1] at hcap
      rw [hcap, List.take_of_length_le (by omega)]
  · intro h
    rw [if_neg (by omega)] at hcap
    rw [hcap]
    exact ⟨rfl, rfl⟩
  · intro h
    rw [if_pos h] at hcap
    rw [hcap]
    exact ⟨rfl, rfl⟩
  · intro h
    by_cases h1 : MAX_IMAGES_COUNT ≤ d.length
    · rw [if_pos h1] at hcap
      rw [hcap]
    · rw [if_neg h1] at hcap
      rw [hcap] at h
      simp at h

/-! ## C8 — byte-size ceiling -/

/-- C8: a document whose UTF-8 size is exactly MAX_HTML_SIZE passes the size
gate (creation proceeds to the idempotency/creation logic and never returns
PayloadTooLarge), while a document one byte over is rejected with
PayloadTooLarge and the task store is returned untouched. -/
theorem C8_size_ceiling (st : ServerState) (now : Nat) (newId : String)
    (idemKey : Option String) (inp : CreateInput) :
    (utf8Len inp.html = MAX_HTML_SIZE →
        (create_export st now newId idemKey inp).1 ≠ .payloadTooLarge ∧
        ((create_export st now newId idemKey inp).1 = .created newId ∨
          ∃ tid, (create_export st now newId idemKey inp).1 = .existing tid)) ∧
    (utf8Len inp.html = MAX_HTML_SIZE + 1 →
        create_export st now newId idemKey inp = (.payloadTooLarge, st)) := by
  constructor
  · intro h
    have hsz : ¬ MAX_HTML_SIZE < utf8Len inp.html := by omega
    unfold create_export
    simp only [if_neg hsz]
    split
    · exact ⟨by simp, Or.inr ⟨_, rfl⟩⟩
    · exact ⟨by simp, Or.inl rfl⟩
  · intro h
    have hsz : MAX_HTML_SIZE < utf8Len inp.html := by omega
    unfold create_export
    simp [hsz]

/-- Concrete document of exactly the ceiling size. -/
def c8ExactHtml : String := String.mk (List.replicate MAX_HTML_SIZE 'a')

/-- Concrete document one byte over the ceiling. -/
def c8OverHtml : String := String.mk (List.replicate (MAX_HTML_SIZE + 1) 'a')

/-- C8 witness: the ceiling boundary at concrete inputs. -/
theorem C8_size_ceiling_witness :
    (create_export {} 0 "exp_a" none { html := c8ExactHtml }).1 ≠ .payloadTooLarge ∧
    create_export {} 0 "exp_a" none { html := c8OverHtml } = (.payloadTooLarge, {}) := by
  have h1 : utf8Len c8ExactHtml = MAX_HTML_SIZE := by
    rw [c8ExactHtml, utf8Len_mk, utf8LenList_replicate]
  have h2 : utf8Len c8OverHtml = MAX_HTML_SIZE + 1 := by
    rw [c8OverHtml, utf8Len_mk, utf8LenList_replicate]
  exact ⟨((C8_size_ceiling {} 0 "exp_a" none { html := c8ExactHtml }).1 h1).1,
    (C8_size_ceiling {} 0 "exp_a" none { html := c8OverHtml }).2 h2⟩

/-- C6 witness: below the cap, nothing is dropped. -/
theorem C6_count_cap_witness :
    cap_images ["a"] ["b", "c"] = (["a"], ["b", "c"]) ∧
    (cap_images ["a"] ["b", "c"]).1 = ["a"] := by
  refine ⟨(C6_count_cap ["a"] ["b", "c"]).2.2.1 (by decide), ?_⟩
  exact ((C6_count_cap ["a"] ["b", "c"]).2.2.2.1 (by decide)).1

/-! ## C2 — extraction de-duplication and ordering -/

lemma mem_dedupAdd (l : List String) (v u : String) :
    u ∈ dedupAdd l v ↔ u ∈ l ∨ u = v := by
  unfold dedupAdd
  split
  · next h =>
    constructor
    · exact Or.inl
    · rintro (h2 | rfl)
      · exact h2
      · simpa using h
  · simp

lemma nodup_dedupAdd (l : List String) (v : String) (h : l.Nodup) :
    (dedupAdd l v).Nodup := by
  unfold dedupAdd
  split
  · exact h
  · next hc =>
    simp [List.nodup_append, h]
    simpa using hc

lemma mem_add_url (acc : List String) (c u : String) :
    u ∈ add_url acc c ↔
      u ∈ acc ∨ (c ≠ "" ∧ decode_reference c = u ∧ u ≠ "" ∧ pyStartsWith u "data:" = false) := by
  simp only [add_url]
  split_ifs with h1 h2
  · subst h1
    simp
  · rw [mem_dedupAdd]
    simp only [Bool.and_eq_true, decide_eq_true_eq, Bool.not_eq_true'] at h2
    constructor
    · rintro (h | rfl)
      · exact Or.inl h
      · exact Or.inr ⟨h1, rfl, h2.1, h2.2⟩
    · rintro (h | ⟨_, rfl, _, _⟩)
      · exact Or.inl h
      · exact Or.inr rfl
  · simp only [Bool.and_eq_true, decide_eq_true_eq, Bool.not_eq_true', not_and_or] at h2
    constructor
    · exact Or.inl
    · rintro (h | ⟨hc, rfl, hu, hd⟩)
      · exact h
      · rcases h2 with h2 | h2
        · exact absurd hu (by simpa using h2)
        · exact absurd hd (by simp [h2])

lemma nodup_add_url (acc : List String) (c : String) (h : acc.Nodup) :
    (add_url acc c).Nodup := by
  simp only [add_url]
  split_ifs
  · exact h
  · exact nodup_dedupAdd _ _ h
  · exact h

lemma nodup_foldl_add_url (captures acc : List String) (h : acc.Nodup) :
    (captures.foldl add_url acc).Nodup := by
  induction captures generalizing acc with
  | nil => exact h
  | cons c cs ih => exact ih _ (nodup_add_url _ _ h)

lemma mem_foldl_add_url (captures : List String) (acc : List String) (u : String) :
    u ∈ captures.foldl add_url acc ↔
      u ∈ acc ∨ (u ≠ "" ∧ pyStartsWith u "data:" = false ∧
        ∃ c ∈ captures, c ≠ "" ∧ decode_reference c = u) := by
  induction captures generalizing acc with
  | nil => simp
  | cons c cs ih =>
    simp only [List.foldl_cons, ih, mem_add_url]
    constructor
    · rintro ((h | ⟨hc, hd, hu, hp⟩) | ⟨hu, hp, c', hc', hce, hd⟩)
      · exact Or.inl h
      · exact Or.inr ⟨hu, hp, c, by simp, hc, hd⟩
      · exact Or.inr ⟨hu, hp, c', by simp [hc'], hce, hd⟩
    · rintro (h | ⟨hu, hp, c', hc', hce, hd⟩)
      · exact Or.inl (Or.inl h)
      · rcases List.mem_cons.mp hc' with rfl | hc'
        · exact Or.inl (Or.inr ⟨hce, hd, hu, hp⟩)
        · exact Or.inr ⟨hu, hp, c', hc', hce, hd⟩

lemma ciPrefixAt_take (pat : List Char) (l : List Char) (k : Nat)
    (hk : pat.length ≤ k) (h : ciPrefixAt pat l = true) :
    ciPrefixAt pat (l.take k) = true := by
  induction pat generalizing l k with
  | nil => rfl
  | cons p ps ih =>
    cases l with
    | nil => simp [ciPrefixAt] at h
    | cons b bs =>
      cases k with
      | zero => simp at hk
      | succ k =>
        simp only [ciPrefixAt, Bool.and_eq_true] at h
        simp only [List.take_succ_cons, ciPrefixAt, Bool.and_eq_true]
        exact ⟨h.1, ih bs k (by simpa using hk) h.2⟩

lemma tryDataImageMatch_spec (l m rest : List Char)
    (h : tryDataImageMatch l = some (m, rest)) :
    ciPrefixAt "data:image/".toList m = true := by
  have h11 : ("data:image/".toList).length = 11 := by rfl
  simp only [tryDataImageMatch] at h
  split_ifs at h with h1 h2 h3 h4 <;> try exact Option.noConfusion h
  simp only [Option.some.injEq, Prod.mk.injEq] at h
  rcases h with ⟨hm, _⟩
  subst hm
  exact ciPrefixAt_take _ _ _ (by omega) h1

lemma scanDataImages_mem (fuel : Nat) (l : List Char) (s : String)
    (hs : s ∈ scanDataImages fuel l) :
    ciPrefixAt "data:image/".toList s.toList = true := by
  induction fuel generalizing l with
  | zero => simp [scanDataImages] at hs
  | succ f ih =>
    cases l with
    | nil => simp [scanDataImages] at hs
    | cons c cs =>
      rw [scanDataImages] at hs
      cases hm : tryDataImageMatch (c :: cs) with
      | none =>
        rw [hm] at hs
        exact ih cs hs
      | some mr =>
        obtain ⟨m, rest⟩ := mr
        rw [hm] at hs
        rcases List.mem_cons.mp hs with rfl | hs
        · exact tryDataImageMatch_spec _ _ _ hm
        · exact ih rest hs

/-- C2 counterexample: the inline-payload list returned by
extract_data_images is not de-duplicated — a document containing the same
data URI twice yields the same decoded string twice. -/
theorem C2_inline_not_deduplicated :
    ¬ (extract_data_images
        "xdata:image/png;base64,AAAA data:image/png;base64,AAAA").Nodup := by
  have h : extract_data_images "xdata:image/png;base64,AAAA data:image/png;base64,AAAA" =
      ["data:image/png;base64,AAAA", "data:image/png;base64,AAAA"] := by rfl
  rw [h]
  simp

/-- C2 (amended): the remote-reference list is de-duplicated by exact
decoded string and contains exactly the non-empty decoded captures that do
not begin with "data:" (in particular no "data:" string ever appears in it);
the inline-payload list contains only data-URI matches, in discovery order,
but is not de-duplicated.  The captures of the eight scanning patterns are
universally quantified since the regex engine itself is outside the model. -/
theorem C2_extraction_dedup (captures : List String) (html : String) :
    (extract_image_urls_from captures).Nodup ∧
    (∀ u, u ∈ extract_image_urls_from captures ↔
      (u ≠ "" ∧ pyStartsWith u "data:" = false ∧
        ∃ c ∈ captures, c ≠ "" ∧ decode_reference c = u)) ∧
    (∀ u ∈ extract_image_urls_from captures, pyStartsWith u "data:" = false) ∧
    (∀ s ∈ extract_data_images html, ciPrefixAt "data:image/".toList s.toList = true) := by
  refine ⟨nodup_foldl_add_url _ _ (by simp), ?_, ?_, ?_⟩
  · intro u
    rw [extract_image_urls_from, mem_foldl_add_url]
    simp
  · intro u hu
    rw [extract_image_urls_from, mem_foldl_add_url] at hu
    simp only [List.not_mem_nil, false_or] at hu
    exact hu.2.1
  · intro s hs
    exact scanDataImages_mem _ _ _ hs

/-- C2 witness: membership characterization at a concrete capture list. -/
theorem C2_extraction_dedup_witness :
    "u1" ∈ extract_image_urls_from ["u1", "u1", "data:a", "u2"] := by
  exact ((C2_extraction_dedup ["u1", "u1", "data:a", "u2"] "").2.1 "u1").mpr (by decide)

/-! ## C3 / C10 — retry loop characterization -/

/-- Outcomes on which the loop retries: timeout, transport-level error, or
HTTP status ≥ 500 or 429. -/
def retryableB : FetchOutcome → Bool
  | .timeout => true
  | .requestError _ => true
  | .httpError s => decide (500 ≤ s) || decide (s = 429)
  | _ => false

/-- Error text recorded for a failing outcome. -/
def outcomeMessage : FetchOutcome → String
  | .success _ _ => ""
  | .timeout => "Download timeout"
  | .httpError s => "HTTP " ++ toString s
  | .requestError m => "Request error: " ++ m
  | .otherError m => m

lemma pyOrError_ne_empty (le : Option String) : pyOrError le ≠ "" := by
  cases le with
  | none => simp [pyOrError]
  | some s =>
    simp only [pyOrError]
    split_ifs with h
    · simp
    · exact h

lemma string_length_eq_zero (s : String) (h : s.length = 0) : s = "" := by
  cases s with
  | mk l =>
    cases l with
    | nil => rfl
    | cons c cs => simp [String.length] at h

lemma append_ne_empty_left (a b : String) (ha : a ≠ "") : a ++ b ≠ "" := by
  intro h
  have hl := congrArg String.length h
  rw [String.length_append] at hl
  have h0 : ("" : String).length = 0 := rfl
  rw [h0] at hl
  exact ha (string_length_eq_zero a (by omega))

lemma retryable_msg_ne_empty (o : FetchOutcome) (h : retryableB o = true) :
    outcomeMessage o ≠ "" := by
  cases o with
  | success ct body => simp [retryableB] at h
  | timeout => simp [outcomeMessage]
  | httpError s => exact append_ne_empty_left "HTTP " _ (by simp)
  | requestError m => exact append_ne_empty_left "Request error: " _ (by simp)
  | otherError m => simp [retryableB] at h

lemma pyOrError_of_ne (s : String) (h : s ≠ "") : pyOrError (some s) = s := by
  simp [pyOrError, h]

lemma download_go_shape (oc : Nat → FetchOutcome) (url : String) (index total : Nat) :
    ∀ (remaining a made : Nat) (le : Option String) (ds : List Nat),
      (∃ ct body madef dsf, download_go oc url index total remaining a made le ds =
          downloadSuccess url index total ct body madef dsf) ∨
      (∃ lef madef dsf, download_go oc url index total remaining a made le ds =
          downloadFail url lef madef dsf) := by
  intro remaining
  induction remaining with
  | zero => intro a made le ds; exact Or.inr ⟨le, made, ds, rfl⟩
  | succ r ih =>
    intro a made le ds
    cases hoc : oc a with
    | success ct body =>
      exact Or.inl ⟨ct, body, made + 1, ds, by simp [download_go, hoc]⟩
    | timeout =>
      by_cases hr : 0 < r
      · simpa [download_go, hoc, hr] using
          ih (a + 1) (made + 1) (some "Download timeout")
            (ds ++ [IMAGE_DOWNLOAD_RETRY_DELAY_MS * (a + 1)])
      · refine Or.inr ⟨some "Download timeout", made + 1, ds, ?_⟩
        simp [download_go, hoc, hr]
    | httpError s =>
      by_cases hs : s < 500 ∧ s ≠ 429
      · refine Or.inr ⟨some ("HTTP " ++ toString s), made + 1, ds, ?_⟩
        simp [download_go, hoc, hs]
      · by_cases hr : 0 < r
        · simpa [download_go, hoc, hs, hr] using
            ih (a + 1) (made + 1) (some ("HTTP " ++ toString s))
              (ds ++ [IMAGE_DOWNLOAD_RETRY_DELAY_MS * (a + 1)])
        · refine Or.inr ⟨some ("HTTP " ++ toString s), made + 1, ds, ?_⟩
          simp [download_go, hoc, hs, hr]
    | requestError m =>
      by_cases hr : 0 < r
      · simpa [download_go, hoc, hr] using
          ih (a + 1) (made + 1) (some ("Request error: " ++ m))
            (ds ++ [IMAGE_DOWNLOAD_RETRY_DELAY_MS * (a + 1)])
      · refine Or.inr ⟨some ("Request error: " ++ m), made + 1, ds, ?_⟩
        simp [download_go, hoc, hr]
    | otherError m =>
      refine Or.inr ⟨some m, made + 1, ds, ?_⟩
      simp [download_go, hoc]

lemma rc_downloadFail (url : String) (le : Option String) (made : Nat) (ds : List Nat) :
    (downloadFail url le made ds).info.retry_count = made := rfl

lemma rc_downloadSuccess (url : String) (index total : Nat) (ct : String) (body : List Nat)
    (made : Nat) (ds : List Nat) :
    (downloadSuccess url index total ct body made ds).info.retry_count = made := rfl

lemma download_go_rc_upper (oc : Nat → FetchOutcome) (url : String) (index total : Nat) :
    ∀ (remaining a made : Nat) (le : Option String) (ds : List Nat),
      (download_go oc url index total remaining a made le ds).info.retry_count ≤
        made + remaining := by
  intro remaining
  induction remaining with
  | zero => intro a made le ds; rw [download_go, rc_downloadFail]; omega
  | succ r ih =>
    intro a made le ds
    cases hoc : oc a with
    | success ct body =>
      simp only [download_go, hoc]
      rw [rc_downloadSuccess]
      omega
    | timeout =>
      simp only [download_go, hoc]
      split_ifs with hr
      · exact le_trans (ih _ _ _ _) (by omega)
      · rw [rc_downloadFail]; omega
    | httpError s =>
      simp only [download_go, hoc]
      split_ifs with hs hr
      · rw [rc_downloadFail]; omega
      · exact le_trans (ih _ _ _ _) (by omega)
      · rw [rc_downloadFail]; omega
    | requestError m =>
      simp only [download_go, hoc]
      split_ifs with hr
      · exact le_trans (ih _ _ _ _) (by omega)
      · rw [rc_downloadFail]; omega
    | otherError m =>
      simp only [download_go, hoc]
      rw [rc_downloadFail]
      omega

lemma download_go_rc_lower (oc : Nat → FetchOutcome) (url : String) (index total : Nat) :
    ∀ (remaining a made : Nat) (le : Option String) (ds : List Nat), 0 < remaining →
      made + 1 ≤ (download_go oc url index total remaining a made le ds).info.retry_count := by
  intro remaining
  induction remaining with
  | zero => intro a made le ds h; omega
  | succ r ih =>
    intro a made le ds _
    cases hoc : oc a with
    | success ct body =>
      simp only [download_go, hoc]
      rw [rc_downloadSuccess]
    | timeout =>
      simp only [download_go, hoc]
      split_ifs with hr
      · exact le_trans (by omega) (ih _ _ _ _ hr)
      · rw [rc_downloadFail]
    | httpError s =>
      simp only [download_go, hoc]
      split_ifs with hs hr
      · rw [rc_downloadFail]
      · exact le_trans (by omega) (ih _ _ _ _ hr)
      · rw [rc_downloadFail]
    | requestError m =>
      simp only [download_go, hoc]
      split_ifs with hr
      · exact le_trans (by omega) (ih _ _ _ _ hr)
      · rw [rc_downloadFail]
    | otherError m =>
      simp only [download_go, hoc]
      rw [rc_downloadFail]

lemma download_go_delays (oc : Nat → FetchOutcome) (url : String) (index total : Nat) :
    ∀ (remaining a made : Nat) (le : Option String) (ds : List Nat),
      a = ds.length →
      (∀ k (hk : k < ds.length), ds[k] = IMAGE_DOWNLOAD_RETRY_DELAY_MS * (k + 1)) →
      ∀ k (hk : k < (download_go oc url index total remaining a made le ds).delays.length),
        (download_go oc url index total remaining a made le ds).delays[k] =
          IMAGE_DOWNLOAD_RETRY_DELAY_MS * (k + 1) := by
  have hstep : ∀ (a : Nat) (ds : List Nat), a = ds.length →
      (∀ k (hk : k < ds.length), ds[k] = IMAGE_DOWNLOAD_RETRY_DELAY_MS * (k + 1)) →
      ∀ k (hk : k < (ds ++ [IMAGE_DOWNLOAD_RETRY_DELAY_MS * (a + 1)]).length),
        (ds ++ [IMAGE_DOWNLOAD_RETRY_DELAY_MS * (a + 1)])[k] =
          IMAGE_DOWNLOAD_RETRY_DELAY_MS * (k + 1) := by
    intro a ds ha hds k hk
    subst ha
    by_cases hlt : k < ds.length
    · rw [List.getElem_append_left hlt]
      exact hds k hlt
    · have hke : k = ds.length := by simp at hk; omega
      subst hke
      rw [List.getElem_concat_length _ _ _ rfl]
  intro remaining
  induction remaining with
  | zero =>
    intro a made le ds ha hds k hk
    exact hds k (by simpa [download_go, downloadFail] using hk)
  | succ r ih =>
    intro a made le ds ha hds
    have hkeep : ∀ k (hk : k < ds.length), ds[k] = IMAGE_DOWNLOAD_RETRY_DELAY_MS * (k + 1) := hds
    cases hoc : oc a with
    | success ct body =>
      simp only [download_go, hoc]
      intro k hk
      exact hds k (by simpa [downloadSuccess] using hk)
    | timeout =>
      simp only [download_go, hoc]
      split_ifs with hr
      · exact ih _ _ _ _ (by simp [ha]) (hstep a ds ha hds)
      · intro k hk
        exact hds k (by simpa [downloadFail] using hk)
    | httpError s =>
      simp only [download_go, hoc]
      split_ifs with hs hr
      · intro k hk
        exact hds k (by simpa [downloadFail] using hk)
      · exact ih _ _ _ _ (by simp [ha]) (hstep a ds ha hds)
      · intro k hk
        exact hds k (by simpa [downloadFail] using hk)
    | requestError m =>
      simp only [download_go, hoc]
      split_ifs with hr
      · exact ih _ _ _ _ (by simp [ha]) (hstep a ds ha hds)
      · intro k hk
        exact hds k (by simpa [downloadFail] using hk)
    | otherError m =>
      simp only [download_go, hoc]
      intro k hk
      exact hds k (by simpa [downloadFail] using hk)

lemma download_go_exhaust (oc : Nat → FetchOutcome) (url : String) (index total : Nat) :
    ∀ (remaining a made : Nat) (le : Option String) (ds : List Nat), 0 < remaining →
      (∀ t, t < remaining → retryableB (oc (a + t)) = true) →
      (download_go oc url index total remaining a made le ds).info.status = "failed" ∧
      (download_go oc url index total remaining a made le ds).info.retry_count =
        made + remaining ∧
      (download_go oc url index total remaining a made le ds).info.error =
        some (outcomeMessage (oc (a + remaining - 1))) := by
  intro remaining
  induction remaining with
  | zero => intro a made le ds h; omega
  | succ r ih =>
    intro a made le ds _ hall
    have h0 : retryableB (oc a) = true := by simpa using hall 0 (by omega)
    have hmsg : outcomeMessage (oc a) ≠ "" := retryable_msg_ne_empty _ h0
    rcases Nat.eq_zero_or_pos r with hr | hr
    · subst hr
      cases hoc : oc a with
      | success ct body => rw [hoc] at h0; simp [retryableB] at h0
      | timeout =>
        have hpy : pyOrError (some "Download timeout") = "Download timeout" :=
          pyOrError_of_ne _ (by decide)
        simp only [download_go, hoc]
        rw [if_neg (by omega : ¬ (0 : Nat) < 0)]
        refine ⟨rfl, by rw [rc_downloadFail], ?_⟩
        simp [downloadFail, hpy, hoc, outcomeMessage]
      | httpError s =>
        have hs : ¬ (s < 500 ∧ s ≠ 429) := by
          rw [hoc] at h0
          simp [retryableB] at h0
          omega
        have hpy : pyOrError (some ("HTTP " ++ toString s)) = "HTTP " ++ toString s :=
          pyOrError_of_ne _ (append_ne_empty_left _ _ (by decide))
        simp only [download_go, hoc]
        rw [if_neg hs, if_neg (by omega : ¬ (0 : Nat) < 0)]
        refine ⟨rfl, by rw [rc_downloadFail], ?_⟩
        simp [downloadFail, hpy, hoc, outcomeMessage]
      | requestError m =>
        have hpy : pyOrError (some ("Request error: " ++ m)) = "Request error: " ++ m :=
          pyOrError_of_ne _ (append_ne_empty_left _ _ (by decide))
        simp only [download_go, hoc]
        rw [if_neg (by omega : ¬ (0 : Nat) < 0)]
        refine ⟨rfl, by rw [rc_downloadFail], ?_⟩
        simp [downloadFail, hpy, hoc, outcomeMessage]
      | otherError m => rw [hoc] at h0; simp [retryableB] at h0
    · have hall' : ∀ t, t < r → retryableB (oc (a + 1 + t)) = true := by
        intro t ht
        have he : a + 1 + t = a + (t + 1) := by omega
        rw [he]
        exact hall (t + 1) (by omega)
      have harith : a + 1 + r - 1 = a + (r + 1) - 1 := by omega
      cases hoc : oc a with
      | success ct body => rw [hoc] at h0; simp [retryableB] at h0
      | timeout =>
        have hrec := ih (a + 1) (made + 1) (some "Download timeout")
          (ds ++ [IMAGE_DOWNLOAD_RETRY_DELAY_MS * (a + 1)]) hr hall'
        rw [harith] at hrec
        simp only [download_go, hoc]
        rw [if_pos hr]
        exact ⟨hrec.1, by rw [hrec.2.1]; omega, hrec.2.2⟩
      | httpError s =>
        have hs : ¬ (s < 500 ∧ s ≠ 429) := by
          rw [hoc] at h0
          simp [retryableB] at h0
          omega
        have hrec := ih (a + 1) (made + 1) (some ("HTTP " ++ toString s))
          (ds ++ [IMAGE_DOWNLOAD_RETRY_DELAY_MS * (a + 1)]) hr hall'
        rw [harith] at hrec
        simp only [download_go, hoc]
        rw [if_neg hs, if_pos hr]
        exact ⟨hrec.1, by rw [hrec.2.1]; omega, hrec.2.2⟩
      | requestError m =>
        have hrec := ih (a + 1) (made + 1) (some ("Request error: " ++ m))
          (ds ++ [IMAGE_DOWNLOAD_RETRY_DELAY_MS * (a + 1)]) hr hall'
        rw [harith] at hrec
        simp only [download_go, hoc]
        rw [if_pos hr]
        exact ⟨hrec.1, by rw [hrec.2.1]; omega, hrec.2.2⟩
      | otherError m => rw [hoc] at h0; simp [retryableB] at h0

/-- C3: for every fetch, attempts never exceed 1 + the retry budget; the
k-th sleep equals baseDelay × k (linear backoff); a non-retryable HTTP error
status on the first attempt fails immediately with exactly one attempt, no
sleep and the observed status recorded; a retryable first outcome (timeout,
transport error, status ≥ 500 or 429) is retried; and when every available
attempt fails retryably the asset ends failed with 1 + budget attempts and
the last observed error. -/
theorem C3_retry_policy (oc : Nat → FetchOutcome) (url : String) (index total : Nat) :
    (1 ≤ (download_single_image oc url index total).info.retry_count ∧
      (download_single_image oc url index total).info.retry_count ≤
        1 + IMAGE_DOWNLOAD_RETRY_COUNT) ∧
    (∀ k (hk : k < (download_single_image oc url index total).delays.length),
      (download_single_image oc url index total).delays[k] =
        IMAGE_DOWNLOAD_RETRY_DELAY_MS * (k + 1)) ∧
    (∀ s, oc 0 = .httpError s → s < 500 → s ≠ 429 →
      download_single_image oc url index total =
        downloadFail url (some ("HTTP " ++ toString s)) 1 []) ∧
    (retryableB (oc 0) = true →
      2 ≤ (download_single_image oc url index total).info.retry_count) ∧
    ((∀ t, t ≤ IMAGE_DOWNLOAD_RETRY_COUNT → retryableB (oc t) = true) →
      (download_single_image oc url index total).info.status = "failed" ∧
      (download_single_image oc url index total).info.retry_count =
        1 + IMAGE_DOWNLOAD_RETRY_COUNT ∧
      (download_single_image oc url index total).info.error =
        some (outcomeMessage (oc IMAGE_DOWNLOAD_RETRY_COUNT))) := by
  refine ⟨⟨?_, ?_⟩, ?_, ?_, ?_, ?_⟩
  · have h := download_go_rc_lower oc url index total (IMAGE_DOWNLOAD_RETRY_COUNT + 1)
      0 0 none [] (by omega)
    exact h
  · have h := download_go_rc_upper oc url index total (IMAGE_DOWNLOAD_RETRY_COUNT + 1) 0 0 none []
    have e : 0 + (IMAGE_DOWNLOAD_RETRY_COUNT + 1) = 1 + IMAGE_DOWNLOAD_RETRY_COUNT := by omega
    rw [e] at h
    exact h
  · exact download_go_delays oc url index total (IMAGE_DOWNLOAD_RETRY_COUNT + 1) 0 0 none []
      rfl (by intro k hk; simp at hk)
  · intro s hoc hlt hne
    show download_go oc url index total (2 + 1) 0 0 none [] = _
    simp [download_go, hoc, hlt, hne]
  · intro h0
    show 2 ≤ (download_go oc url index total (2 + 1) 0 0 none []).info.retry_count
    cases hoc : oc 0 with
    | success ct body => rw [hoc] at h0; simp [retryableB] at h0
    | timeout =>
      simp only [download_go, hoc]
      rw [if_pos (by omega : (0 : Nat) < 2)]
      exact download_go_rc_lower oc url index total 2 1 1 (some "Download timeout")
        ([] ++ [IMAGE_DOWNLOAD_RETRY_DELAY_MS * (0 + 1)]) (by omega)
    | httpError s =>
      have hs : ¬ (s < 500 ∧ s ≠ 429) := by
        rw [hoc] at h0
        simp [retryableB] at h0
        omega
      simp only [download_go, hoc]
      rw [if_neg hs, if_pos (by omega : (0 : Nat) < 2)]
      exact download_go_rc_lower oc url index total 2 1 1 (some ("HTTP " ++ toString s))
        ([] ++ [IMAGE_DOWNLOAD_RETRY_DELAY_MS * (0 + 1)]) (by omega)
    | requestError m =>
      simp only [download_go, hoc]
      rw [if_pos (by omega : (0 : Nat) < 2)]
      exact download_go_rc_lower oc url index total 2 1 1 (some ("Request error: " ++ m))
        ([] ++ [IMAGE_DOWNLOAD_RETRY_DELAY_MS * (0 + 1)]) (by omega)
    | otherError m => rw [hoc] at h0; simp [retryableB] at h0
  · intro hall
    have h := download_go_exhaust oc url index total (IMAGE_DOWNLOAD_RETRY_COUNT + 1) 0 0 none []
      (by omega)
      (by intro t ht
          have e : (0 : Nat) + t = t := by omega
          rw [e]
          exact hall t (by omega))
    have e2 : 0 + (IMAGE_DOWNLOAD_RETRY_COUNT + 1) - 1 = IMAGE_DOWNLOAD_RETRY_COUNT := by omega
    have e1 : 0 + (IMAGE_DOWNLOAD_RETRY_COUNT + 1) = 1 + IMAGE_DOWNLOAD_RETRY_COUNT := by omega
    rw [e2, e1] at h
    exact h

/-- C3 witness: an HTTP 404 on the first attempt stops after exactly one
attempt with the status recorded and no sleeps. -/
theorem C3_retry_policy_witness :
    download_single_image (fun _ => FetchOutcome.httpError 404) "http://e/a.png" 1 1 =
      downloadFail "http://e/a.png" (some ("HTTP " ++ toString 404)) 1 [] := by
  exact (C3_retry_policy (fun _ => FetchOutcome.httpError 404) "http://e/a.png" 1 1).2.2.1
    404 rfl (by omega) (by omega)

/-- Invariant on one finished asset-resolution record: the status is final
(downloaded or failed, never pending/downloading); downloaded records carry
the images/<zero-padded ordinal><extension> name and a size equal to the
bytes written; failed records carry a non-empty error and at least one
attempt. -/
def RecordOk (index total : Nat) (R : FetchResult) : Prop :=
  (R.info.status = "downloaded" ∨ R.info.status = "failed") ∧
  (R.info.status = "downloaded" → ∃ ext bytes,
      R.info.filename = some ("images/" ++ ordinal_filename index total ext) ∧
      R.written = some (ordinal_filename index total ext, bytes) ∧
      R.info.size = some bytes.length) ∧
  (R.info.status = "failed" → ∃ e, R.info.error = some e ∧ e ≠ "" ∧ 1 ≤ R.info.retry_count)

lemma b64decode_lenient_error_ne (s e : String)
    (h : b64decode_lenient s = .error e) : e ≠ "" := by
  simp only [b64decode_lenient] at h
  split_ifs at h with h1 h2
  · simp only [Except.error.injEq] at h
    subst h
    decide
  · simp only [Except.error.injEq] at h
    subst h
    decide

lemma b64decode_dual_error_ne (s e : String)
    (h : b64decode_dual s = .error e) : e ≠ "" := by
  simp only [b64decode_dual] at h
  cases hs : b64decode_strict s with
  | ok b => rw [hs] at h; simp at h
  | error e2 => rw [hs] at h; exact b64decode_lenient_error_ne _ _ h

lemma recordOk_dataImageFail (data_url msg : String) (index total : Nat) (h : msg ≠ "") :
    RecordOk index total (dataImageFail data_url msg) := by
  refine ⟨Or.inr rfl, ?_, ?_⟩
  · intro hc; simp [dataImageFail] at hc
  · intro _
    exact ⟨msg, rfl, h, by simp [dataImageFail]⟩

lemma save_data_image_ok (data_url : String) (index total : Nat) :
    RecordOk index total (save_data_image data_url index total) := by
  cases hsp : splitOnce data_url ',' with
  | none =>
    have heq : save_data_image data_url index total =
        dataImageFail data_url "not enough values to unpack (expected 2, got 1)" := by
      simp [save_data_image, hsp]
    rw [heq]
    exact recordOk_dataImageFail _ _ _ _ (by decide)
  | some hp =>
    obtain ⟨header, payload⟩ := hp
    cases hdec : b64decode_dual (String.mk (payload.data.filter fun c => !c.isWhitespace)) with
    | error e =>
      have heq : save_data_image data_url index total = dataImageFail data_url e := by
        simp [save_data_image, hsp, hdec]
      rw [heq]
      exact recordOk_dataImageFail _ _ _ _ (b64decode_dual_error_ne _ _ hdec)
    | ok file_bytes =>
      have heq : save_data_image data_url index total =
          { info := { url := data_url,
                      filename := some ("images/" ++ ordinal_filename index total
                        (get_file_extension ""
                          (replaceAllStr (String.mk ((splitOnChar ';' header.data).headD []))
                            "data:" ""))),
                      status := "downloaded", size := some file_bytes.length,
                      error := none, retry_count := 1 },
            delays := [],
            written := some (ordinal_filename index total
                (get_file_extension ""
                  (replaceAllStr (String.mk ((splitOnChar ';' header.data).headD []))
                    "data:" "")),
              file_bytes) } := by
        simp [save_data_image, hsp, hdec]
      rw [heq]
      refine ⟨Or.inl rfl, ?_, ?_⟩
      · intro _
        exact ⟨_, file_bytes, rfl, rfl, rfl⟩
      · intro hc; simp at hc

lemma recordOk_downloadSuccess (url : String) (index total : Nat) (ct : String)
    (body : List Nat) (made : Nat) (ds : List Nat) :
    RecordOk index total (downloadSuccess url index total ct body made ds) := by
  refine ⟨Or.inl rfl, ?_, ?_⟩
  · intro _
    exact ⟨get_file_extension url ct, body, rfl, rfl, rfl⟩
  · intro hc; simp [downloadSuccess] at hc

lemma recordOk_downloadFail (url : String) (le : Option String) (made : Nat) (ds : List Nat)
    (index total : Nat) (h : 1 ≤ made) :
    RecordOk index total (downloadFail url le made ds) := by
  refine ⟨Or.inr rfl, ?_, ?_⟩
  · intro hc; simp [downloadFail] at hc
  · intro _
    exact ⟨pyOrError le, rfl, pyOrError_ne_empty le, h⟩

lemma download_single_image_shape (oc : Nat → FetchOutcome) (url : String) (index total : Nat) :
    (∃ ct body made ds, download_single_image oc url index total =
        downloadSuccess url index total ct body made ds) ∨
    (∃ le made ds, download_single_image oc url index total = downloadFail url le made ds) :=
  download_go_shape oc url index total (IMAGE_DOWNLOAD_RETRY_COUNT + 1) 0 0 none []

lemma download_single_image_rc_lower (oc : Nat → FetchOutcome) (url : String)
    (index total : Nat) :
    1 ≤ (download_single_image oc url index total).info.retry_count :=
  download_go_rc_lower oc url index total (IMAGE_DOWNLOAD_RETRY_COUNT + 1) 0 0 none []
    (by omega)

lemma download_single_image_ok (oc : Nat → FetchOutcome) (url : String) (index total : Nat) :
    RecordOk index total (download_single_image oc url index total) := by
  rcases download_single_image_shape oc url index total with
    ⟨ct, body, made, ds, heq⟩ | ⟨le, made, ds, heq⟩
  · rw [heq]
    exact recordOk_downloadSuccess url index total ct body made ds
  · have h1 := download_single_image_rc_lower oc url index total
    rw [heq, rc_downloadFail] at h1
    rw [heq]
    exact recordOk_downloadFail url le made ds index total h1

/-- C10: every record produced by either fetch entry point ends in a final
state — downloaded records carry an images/<zero-padded ordinal><ext> local
name and a byte size equal to the bytes written, failed records carry a
non-empty error message and at least one attempt; no record ends pending or
downloading. -/
theorem C10_record_invariants (data_url : String) (i1 t1 : Nat)
    (oc : Nat → FetchOutcome) (url : String) (i2 t2 : Nat) :
    RecordOk i1 t1 (save_data_image data_url i1 t1) ∧
    RecordOk i2 t2 (download_single_image oc url i2 t2) :=
  ⟨save_data_image_ok data_url i1 t1, download_single_image_ok oc url i2 t2⟩

/-- C10 witness: the failed-record half of the invariant at a concrete
404-failing fetch. -/
theorem C10_record_invariants_witness :
    ∃ e, (download_single_image (fun _ => FetchOutcome.httpError 404)
        "http://e/a.png" 1 1).info.error = some e ∧ e ≠ "" ∧
      1 ≤ (download_single_image (fun _ => FetchOutcome.httpError 404)
        "http://e/a.png" 1 1).info.retry_count := by
  exact ((C10_record_invariants "data:image/png;base64,AAAA" 1 1
    (fun _ => FetchOutcome.httpError 404) "http://e/a.png" 1 1).2).2.2 (by rfl)

/-! ## C7 / C4 — positional update and indexing lemmas -/

lemma getD_set_eq (l : List α) (i : Nat) (a d : α) (h : i < l.length) :
    (l.set i a).getD i d = a := by
  induction l generalizing i with
  | nil => simp at h
  | cons x xs ih =>
    cases i with
    | zero => rfl
    | succ n => exact ih n (by simpa using h)

lemma getD_set_ne (l : List α) (i j : Nat) (a d : α) (h : i ≠ j) :
    (l.set i a).getD j d = l.getD j d := by
  induction l generalizing i j with
  | nil => rfl
  | cons x xs ih =>
    cases i with
    | zero =>
      cases j with
      | zero => exact absurd rfl h
      | succ m => rfl
    | succ n =>
      cases j with
      | zero => rfl
      | succ m => exact ih n m (by omega)

lemma getD_map_lt (f : α → β) (l : List α) (i : Nat) (d : β) (d2 : α) (h : i < l.length) :
    (l.map f).getD i d = f (l.getD i d2) := by
  induction l generalizing i with
  | nil => simp at h
  | cons x xs ih =>
    cases i with
    | zero => rfl
    | succ n => exact ih n (by simpa using h)

lemma getD_append_lt (A B : List α) (i : Nat) (d : α) (h : i < A.length) :
    (A ++ B).getD i d = A.getD i d := by
  induction A generalizing i with
  | nil => simp at h
  | cons a as ih =>
    cases i with
    | zero => rfl
    | succ n => exact ih n (by simpa using h)

lemma getD_append_ge (A B : List α) (i : Nat) (d : α) (h : A.length ≤ i) :
    (A ++ B).getD i d = B.getD (i - A.length) d := by
  induction A generalizing i with
  | nil => simp
  | cons a as ih =>
    cases i with
    | zero => simp at h
    | succ n => simpa using ih n (by simpa using h)

lemma getD_mapWithIndex (f : Nat → α → β) (d : β) (d2 : α) :
    ∀ (s : Nat) (l : List α) (i : Nat), i < l.length →
      (mapWithIndex f s l).getD i d = f (s + i) (l.getD i d2) := by
  intro s l
  induction l generalizing s with
  | nil => intro i h; simp at h
  | cons a as ih =>
    intro i h
    cases i with
    | zero => simp [mapWithIndex]
    | succ n =>
      have := ih (s + 1) n (by simpa using h)
      simpa [mapWithIndex, Nat.add_assoc, Nat.add_comm 1 n] using this

lemma mem_mapWithIndex (f : Nat → α → β) :
    ∀ (s : Nat) (l : List α) (b : β),
      b ∈ mapWithIndex f s l ↔ ∃ k, ∃ (hk : k < l.length), b = f (s + k) (l.get ⟨k, hk⟩) := by
  intro s l
  induction l generalizing s with
  | nil => intro b; simp [mapWithIndex]
  | cons a as ih =>
    intro b
    simp only [mapWithIndex, List.mem_cons, ih]
    constructor
    · rintro (rfl | ⟨k, hk, rfl⟩)
      · exact ⟨0, by simp, by simp⟩
      · refine ⟨k + 1, by simpa using Nat.succ_lt_succ hk, ?_⟩
        have he : s + 1 + k = s + (k + 1) := by omega
        simp [List.get, he]
    · rintro ⟨k, hk, rfl⟩
      cases k with
      | zero => exact Or.inl (by simp)
      | succ n =>
        refine Or.inr ⟨n, by simpa using hk, ?_⟩
        have he : s + 1 + n = s + (n + 1) := by omega
        simp [List.get, he]

lemma applyUpdates_length (imgs : List ImageInfo) (updates : List (Nat × ImageInfo)) :
    (applyUpdates imgs updates).length = imgs.length := by
  induction updates generalizing imgs with
  | nil => rfl
  | cons u us ih =>
    show (applyUpdates (imgs.set u.1 u.2) us).length = imgs.length
    rw [ih, List.length_set]

lemma applyUpdates_getD_not_mem (imgs : List ImageInfo) (updates : List (Nat × ImageInfo))
    (i : Nat) (d : ImageInfo) (hin : ∀ p ∈ updates, p.1 ≠ i) :
    (applyUpdates imgs updates).getD i d = imgs.getD i d := by
  induction updates generalizing imgs with
  | nil => rfl
  | cons u us ih =>
    show (applyUpdates (imgs.set u.1 u.2) us).getD i d = imgs.getD i d
    rw [ih (imgs.set u.1 u.2) (fun p hp => hin p (List.mem_cons_of_mem _ hp))]
    exact getD_set_ne _ _ _ _ _ (hin u (by simp))

lemma applyUpdates_getD_covered (Q : ImageInfo → Prop)
    (imgs : List ImageInfo) (updates : List (Nat × ImageInfo)) (i : Nat) (d : ImageInfo)
    (hcov : ∃ p ∈ updates, p.1 = i)
    (hq : ∀ p ∈ updates, p.1 = i → Q p.2)
    (hi : i < imgs.length) :
    Q ((applyUpdates imgs updates).getD i d) := by
  induction updates generalizing imgs i with
  | nil => simp at hcov
  | cons u us ih =>
    show Q ((applyUpdates (imgs.set u.1 u.2) us).getD i d)
    by_cases hus : ∃ p ∈ us, p.1 = i
    · exact ih (imgs.set u.1 u.2) i hus
        (fun p hp he => hq p (List.mem_cons_of_mem _ hp) he) (by simpa using hi)
    · have hu : u.1 = i := by
        rcases hcov with ⟨p, hp, he⟩
        rcases List.mem_cons.mp hp with rfl | hp2
        · exact he
        · exact absurd ⟨p, hp2, he⟩ hus
      subst hu
      rw [applyUpdates_getD_not_mem _ _ _ _ (fun p hp he => hus ⟨p, hp, he⟩)]
      rw [getD_set_eq imgs u.1 u.2 d hi]
      exact hq u (by simp) rfl

lemma sizeRefreshOne_status (dir : List (String × Nat)) (img : ImageInfo) :
    (sizeRefreshOne dir img).status = img.status := by
  simp only [sizeRefreshOne]
  split
  · split <;> rfl
  · rfl

lemma sizeRefreshOne_url (dir : List (String × Nat)) (img : ImageInfo) :
    (sizeRefreshOne dir img).url = img.url := by
  simp only [sizeRefreshOne]
  split
  · split <;> rfl
  · rfl

lemma sizeRefreshOne_filename (dir : List (String × Nat)) (img : ImageInfo) :
    (sizeRefreshOne dir img).filename = img.filename := by
  simp only [sizeRefreshOne]
  split
  · next f heq => split <;> simp [heq]
  · rfl

lemma save_data_image_url (data_url : String) (index total : Nat) :
    (save_data_image data_url index total).info.url = data_url := by
  simp only [save_data_image]
  split
  · rfl
  · split
    · rfl
    · rfl

lemma download_single_image_url (oc : Nat → FetchOutcome) (url : String) (index total : Nat) :
    (download_single_image oc url index total).info.url = url := by
  rcases download_single_image_shape oc url index total with
    ⟨ct, body, made, ds, heq⟩ | ⟨le, made, ds, heq⟩ <;> rw [heq] <;> rfl

lemma retryOne_ok (env : RetryEnv) (task : ExportTask) (k index : Nat) :
    RecordOk (index + 1) task.images.length (retryOne env task k index) := by
  simp only [retryOne]
  split_ifs
  · exact save_data_image_ok _ _ _
  · exact download_single_image_ok _ _ _ _

lemma retryOne_url (env : RetryEnv) (task : ExportTask) (k index : Nat) :
    (retryOne env task k index).info.url = (task.images.getD index dummyImage).url := by
  simp only [retryOne]
  split_ifs
  · exact save_data_image_url _ _ _
  · exact download_single_image_url _ _ _ _

lemma retry_updates_mem (env : RetryEnv) (task : ExportTask) (retry_indices : List Nat)
    (q : Nat × ImageInfo)
    (hq : q ∈ (retryResults env task retry_indices).map fun p => (p.1, p.2.info)) :
    ∃ k, ∃ (hk : k < retry_indices.length),
      q.1 = retry_indices.get ⟨k, hk⟩ ∧ q.2 = (retryOne env task k q.1).info := by
  rcases List.mem_map.mp hq with ⟨p, hp, rfl⟩
  rcases (mem_mapWithIndex _ 0 retry_indices p).mp hp with ⟨k, hk, rfl⟩
  exact ⟨k, hk, by simp, by simp⟩

lemma retry_updates_cover (env : RetryEnv) (task : ExportTask) (retry_indices : List Nat)
    (j : Nat) (hj : j ∈ retry_indices) :
    ∃ q ∈ (retryResults env task retry_indices).map (fun p => (p.1, p.2.info)), q.1 = j := by
  rcases List.get_of_mem hj with ⟨⟨k, hk⟩, hget⟩
  refine ⟨(j, (retryOne env task k j).info), ?_, rfl⟩
  apply List.mem_map.mpr
  refine ⟨(j, retryOne env task k j), ?_, rfl⟩
  apply (mem_mapWithIndex _ 0 retry_indices _).mpr
  refine ⟨k, hk, ?_⟩
  have hg : retry_indices.get ⟨k, hk⟩ = j := hget
  simp [← hg]

lemma perform_retry_images_images (env : RetryEnv) (task : ExportTask)
    (retry_indices : List Nat) :
    (perform_retry_images env task retry_indices).1.images =
      (applyUpdates task.images
        ((retryResults env task retry_indices).map fun p => (p.1, p.2.info))).map
        (sizeRefreshOne (retryDir env (retryResults env task retry_indices))) := rfl

lemma perform_retry_images_status (env : RetryEnv) (task : ExportTask)
    (retry_indices : List Nat) :
    (perform_retry_images env task retry_indices).1.status = .completed := rfl

/-! ## C4 — fully failed retry still completes -/

/-- C4: a selective retry in which every targeted asset fails again (and no
exception escapes) still ends with the task marked Completed, the targeted
assets remaining recorded as failed. -/
theorem C4_failed_retry_still_completed (env : RetryEnv) (task : ExportTask)
    (retry_indices : List Nat)
    (hidx : ∀ j ∈ retry_indices, j < task.images.length)
    (hfail : ∀ k (hk : k < retry_indices.length),
      (retryOne env task k (retry_indices.get ⟨k, hk⟩)).info.status = "failed") :
    (perform_retry_images env task retry_indices).1.status = .completed ∧
    ∀ j ∈ retry_indices,
      ((perform_retry_images env task retry_indices).1.images.getD j dummyImage).status =
        "failed" := by
  refine ⟨rfl, ?_⟩
  intro j hj
  have hjl : j < task.images.length := hidx j hj
  rw [perform_retry_images_images]
  have hlen : (applyUpdates task.images
      ((retryResults env task retry_indices).map fun p => (p.1, p.2.info))).length =
      task.images.length := applyUpdates_length _ _
  rw [getD_map_lt _ _ _ dummyImage dummyImage (by omega)]
  rw [sizeRefreshOne_status]
  refine applyUpdates_getD_covered (fun img => img.status = "failed") task.images _ j
    dummyImage (retry_updates_cover env task retry_indices j hj) ?_ hjl
  intro q hq he
  rcases retry_updates_mem env task retry_indices q hq with ⟨k, hk, hq1, hq2⟩
  rw [hq2, hq1]
  exact hfail k hk

/-- C4 witness: one remote asset failing again with HTTP 404. -/
theorem C4_failed_retry_still_completed_witness :
    (perform_retry_images
        ⟨[], fun _ _ => FetchOutcome.httpError 404⟩
        { id := "t", created_at := 0, expires_at := 10,
          images := [{ url := "http://e/a.png", status := "failed",
                       error := some "HTTP 404", retry_count := 3 }] }
        [0]).1.status = .completed ∧
    ∀ j ∈ [0],
      ((perform_retry_images
          ⟨[], fun _ _ => FetchOutcome.httpError 404⟩
          { id := "t", created_at := 0, expires_at := 10,
            images := [{ url := "http://e/a.png", status := "failed",
                         error := some "HTTP 404", retry_count := 3 }] }
          [0]).1.images.getD j dummyImage).status = "failed" := by
  exact C4_failed_retry_still_completed _ _ _
    (by intro j hj
        simp at hj
        subst hj
        simp)
    (by intro k hk
        simp at hk
        subst hk
        rfl)

/-! ## C7 — sequential ordinal naming -/

/-- Ordinal naming invariant for the asset at list index `i` of an `n`-asset
task: a downloaded record's local name carries ordinal i+1 zero-padded to
max(2, digits(n)). -/
def OrdinalOk (n i : Nat) (img : ImageInfo) : Prop :=
  img.status = "downloaded" →
    ∃ ext, img.filename = some ("images/" ++ ordinal_filename (i + 1) n ext)

lemma process_task_images_pos (d r : List String) (oc : Nat → Nat → FetchOutcome)
    (h : (cap_images d r).1.length + (cap_images d r).2.length ≠ 0) :
    process_task_images d r true oc =
      mapWithIndex (fun i u => (save_data_image u (i + 1)
          ((cap_images d r).1.length + (cap_images d r).2.length)).info) 0 (cap_images d r).1 ++
      mapWithIndex (fun i u => (download_single_image (oc i) u
          (i + 1 + (cap_images d r).1.length)
          ((cap_images d r).1.length + (cap_images d r).2.length)).info) 0 (cap_images d r).2 := by
  simp [process_task_images, h]

lemma process_task_images_pending (d r : List String) (oc : Nat → Nat → FetchOutcome)
    (download : Bool)
    (h : download = false ∨ (cap_images d r).1.length + (cap_images d r).2.length = 0) :
    process_task_images d r download oc =
      ((cap_images d r).1 ++ (cap_images d r).2).map fun u => { url := u } := by
  rcases h with rfl | h
  · simp [process_task_images]
  · simp [process_task_images, h]

/-- C7: the asset at list index i is assigned ordinal i+1 (zero-padded to
max(2, digits(n))) during the full run; a selective retry keeps the list
length and per-index URLs (never reordered) and re-establishes the same
ordinal invariant at every index. -/
theorem C7_ordinal_assignment (d r : List String) (download : Bool)
    (oc : Nat → Nat → FetchOutcome) (env : RetryEnv) (task : ExportTask)
    (retry_indices : List Nat)
    (hold : ∀ i, i < task.images.length →
      OrdinalOk task.images.length i (task.images.getD i dummyImage)) :
    (∀ i, i < (process_task_images d r download oc).length →
      OrdinalOk (process_task_images d r download oc).length i
        ((process_task_images d r download oc).getD i dummyImage)) ∧
    (perform_retry_images env task retry_indices).1.images.length = task.images.length ∧
    (∀ i, i < task.images.length →
      ((perform_retry_images env task retry_indices).1.images.getD i dummyImage).url =
        (task.images.getD i dummyImage).url) ∧
    (∀ i, i < task.images.length →
      OrdinalOk task.images.length i
        ((perform_retry_images env task retry_indices).1.images.getD i dummyImage)) := by
  have hupdlen : (applyUpdates task.images
      ((retryResults env task retry_indices).map fun p => (p.1, p.2.info))).length =
      task.images.length := applyUpdates_length _ _
  refine ⟨?_, ?_, ?_, ?_⟩
  · intro i hi
    by_cases hdl : download = true ∧
        (cap_images d r).1.length + (cap_images d r).2.length ≠ 0
    · obtain ⟨rfl, hne⟩ := hdl
      rw [process_task_images_pos d r oc hne] at hi ⊢
      have hlen : (mapWithIndex (fun i u => (save_data_image u (i + 1)
          ((cap_images d r).1.length + (cap_images d r).2.length)).info) 0
            (cap_images d r).1 ++
          mapWithIndex (fun i u => (download_single_image (oc i) u
            (i + 1 + (cap_images d r).1.length)
            ((cap_images d r).1.length + (cap_images d r).2.length)).info) 0
            (cap_images d r).2).length =
          (cap_images d r).1.length + (cap_images d r).2.length := by
        simp [mapWithIndex_length]
      rw [hlen] at hi ⊢
      by_cases hik : i < (cap_images d r).1.length
      · rw [getD_append_lt _ _ _ _ (by rw [mapWithIndex_length]; omega)]
        rw [getD_mapWithIndex _ dummyImage "" 0 _ i hik]
        simp only [Nat.zero_add]
        intro hdown
        rcases (save_data_image_ok _ _ _).2.1 hdown with ⟨ext, bytes, hfn, _, _⟩
        exact ⟨ext, hfn⟩
      · rw [getD_append_ge _ _ _ _ (by rw [mapWithIndex_length]; omega)]
        rw [mapWithIndex_length]
        rw [getD_mapWithIndex _ dummyImage "" 0 _ _ (by omega)]
        simp only [Nat.zero_add]
        have he : i - (cap_images d r).1.length + 1 + (cap_images d r).1.length = i + 1 := by
          omega
        rw [he]
        intro hdown
        rcases (download_single_image_ok _ _ _ _).2.1 hdown with ⟨ext, bytes, hfn, _, _⟩
        exact ⟨ext, hfn⟩
    · have hp : download = false ∨
          (cap_images d r).1.length + (cap_images d r).2.length = 0 := by
        by_cases hd : download = true
        · right
          by_contra hne
          exact hdl ⟨hd, hne⟩
        · left
          exact Bool.not_eq_true download |>.mp hd
      rw [process_task_images_pending d r oc download hp] at hi ⊢
      rw [getD_map_lt _ _ _ dummyImage "" (by simpa using hi)]
      intro hdown
      simp only [] at hdown
      exact absurd hdown (by decide)
  · rw [perform_retry_images_images]
    simp [hupdlen]
  · intro i hi
    rw [perform_retry_images_images]
    rw [getD_map_lt _ _ _ dummyImage dummyImage (by omega)]
    rw [sizeRefreshOne_url]
    by_cases hcov : ∃ q ∈ (retryResults env task retry_indices).map
        (fun p => (p.1, p.2.info)), q.1 = i
    · refine applyUpdates_getD_covered
        (fun img => img.url = (task.images.getD i dummyImage).url) task.images _ i
        dummyImage hcov ?_ hi
      intro q hq he
      rcases retry_updates_mem env task retry_indices q hq with ⟨k, hk, hq1, hq2⟩
      rw [hq2, he]
      exact retryOne_url env task k i
    · rw [applyUpdates_getD_not_mem _ _ _ _ (fun q hq he => hcov ⟨q, hq, he⟩)]
  · intro i hi
    rw [perform_retry_images_images]
    rw [getD_map_lt _ _ _ dummyImage dummyImage (by omega)]
    have hseq : ∀ x : ImageInfo, OrdinalOk task.images.length i x →
        OrdinalOk task.images.length i
          (sizeRefreshOne (retryDir env (retryResults env task retry_indices)) x) := by
      intro x hx hdown
      rw [sizeRefreshOne_status] at hdown
      rcases hx hdown with ⟨ext, hfn⟩
      refine ⟨ext, ?_⟩
      rw [sizeRefreshOne_filename]
      exact hfn
    apply hseq
    by_cases hcov : ∃ q ∈ (retryResults env task retry_indices).map
        (fun p => (p.1, p.2.info)), q.1 = i
    · refine applyUpdates_getD_covered (OrdinalOk task.images.length i) task.images _ i
        dummyImage hcov ?_ hi
      intro q hq he
      rcases retry_updates_mem env task retry_indices q hq with ⟨k, hk, hq1, hq2⟩
      rw [hq2, he]
      intro hdown
      rcases (retryOne_ok env task k i).2.1 hdown with ⟨ext, bytes, hfn, _, _⟩
      exact ⟨ext, hfn⟩
    · rw [applyUpdates_getD_not_mem _ _ _ _ (fun q hq he => hcov ⟨q, hq, he⟩)]
      exact hold i hi

/-- C7 witness: a one-remote-asset full run assigns ordinal 1. -/
theorem C7_ordinal_assignment_witness :
    ∃ ext, ((process_task_images [] ["http://e/a.png"] true
        (fun _ _ => FetchOutcome.success "image/png" [1, 2, 3])).getD 0 dummyImage).filename =
      some ("images/" ++ ordinal_filename (0 + 1)
        (process_task_images [] ["http://e/a.png"] true
          (fun _ _ => FetchOutcome.success "image/png" [1, 2, 3])).length ext) := by
  exact (C7_ordinal_assignment [] ["http://e/a.png"] true
      (fun _ _ => FetchOutcome.success "image/png" [1, 2, 3])
      ⟨[], fun _ _ => FetchOutcome.timeout⟩
      { id := "t", created_at := 0, expires_at := 10 } []
      (by intro i hi; simp at hi)).1 0 (by decide) (by rfl)

/-! ## C9 — retry with zero failed assets is a no-op -/

lemma failedIndices_nil (task : ExportTask)
    (h : ∀ img ∈ task.images, img.status ≠ "failed") : failedIndices task = [] := by
  simp only [failedIndices]
  rw [List.map_eq_nil_iff, List.filter_eq_nil_iff]
  intro p hp
  rcases (mem_mapWithIndex _ 0 task.images p).mp hp with ⟨kk, hk, rfl⟩
  simp only [Bool.not_eq_true, beq_eq_false_iff_ne, ne_eq]
  exact h _ (task.images.get_mem kk hk)

/-- C9: invoking retry-all-failed on a Completed, unexpired task with zero
currently-failed assets returns the current manifest and leaves the server
state (hence the task's status, assets, stats, rendered document and
archive) unchanged. -/
theorem C9_retry_noop (env : RetryEnv) (archiveExists : Bool) (st : ServerState)
    (now : Nat) (export_id : String) (task : ExportTask)
    (hfound : lookupA st.export_tasks export_id = some task)
    (hlive : ¬ task.expires_at < now)
    (hdone : task.status = .completed)
    (hnofail : ∀ img ∈ task.images, img.status ≠ "failed") :
    retry_failed_images_route env archiveExists st now export_id =
      (.manifest (manifestOf task), st) := by
  simp only [retry_failed_images_route, hfound]
  rw [if_neg hlive]
  rw [if_neg (by simp [hdone])]
  rw [failedIndices_nil task hnofail]
  simp

/-- Concrete completed task with one downloaded asset for the C9 witness. -/
def c9Task : ExportTask :=
  { id := "exp_1", status := .completed, created_at := 0, expires_at := 10,
    images := [{ url := "http://e/a.png", filename := some "images/01.png",
                 status := "downloaded", size := some 3, retry_count := 1 }] }

/-- C9 witness: a no-op retry at a concrete server state. -/
theorem C9_retry_noop_witness :
    retry_failed_images_route ⟨[], fun _ _ => FetchOutcome.timeout⟩ true
        { export_tasks := [("exp_1", c9Task)] } 5 "exp_1" =
      (.manifest (manifestOf c9Task), { export_tasks := [("exp_1", c9Task)] }) := by
  exact C9_retry_noop _ _ _ _ _ c9Task rfl (by simp [c9Task]) rfl
    (by intro img him
        simp [c9Task] at him
        subst him
        decide)

/-! ## C5 — association-list (dict) lemmas -/

lemma lookupA_nil (k : String) : lookupA ([] : List (String × α)) k = none := rfl

lemma lookupA_cons (p : String × α) (l : List (String × α)) (k : String) :
    lookupA (p :: l) k = if p.1 = k then some p.2 else lookupA l k := by
  by_cases h : p.1 = k
  · have hb : (p.1 == k) = true := by simpa using h
    simp [lookupA, List.find?_cons_of_pos _ hb, h]
  · have hb : ¬ ((p.1 == k) = true) := by simpa using h
    simp [lookupA, List.find?_cons_of_neg _ hb, h]

lemma lookupA_replace_ne (l : List (String × α)) (k k' : String) (v : α) (h : k ≠ k') :
    lookupA (l.map fun p => if p.1 == k then (k, v) else p) k' = lookupA l k' := by
  induction l with
  | nil => rfl
  | cons p ps ih =>
    rw [List.map_cons, lookupA_cons, lookupA_cons]
    by_cases hp : p.1 = k
    · have hb : (p.1 == k) = true := by simpa using hp
      simp only [hb, if_true]
      rw [if_neg (by simpa using h), if_neg (by rw [hp]; exact h)]
      exact ih
    · have hb : (p.1 == k) = false := by simpa using hp
      simp only [hb, Bool.false_eq_true, if_false]
      by_cases hp' : p.1 = k'
      · simp [hp']
      · rw [if_neg hp', if_neg hp']
        exact ih

lemma lookupA_replace_self (l : List (String × α)) (k : String) (v : α)
    (hfind : (l.find? fun p => p.1 == k).isSome = true) :
    lookupA (l.map fun p => if p.1 == k then (k, v) else p) k = some v := by
  induction l with
  | nil => simp [List.find?] at hfind
  | cons p ps ih =>
    rw [List.map_cons, lookupA_cons]
    by_cases hp : p.1 = k
    · have hb : (p.1 == k) = true := by simpa using hp
      simp [hb]
    · have hb : (p.1 == k) = false := by simpa using hp
      simp only [hb, Bool.false_eq_true, if_false]
      rw [if_neg hp]
      apply ih
      rw [List.find?_cons_of_neg _ (by simpa using hp)] at hfind
      exact hfind

lemma lookupA_append_single (l : List (String × α)) (k k' : String) (v : α) :
    lookupA (l ++ [(k, v)]) k' =
      match lookupA l k' with
      | some w => some w
      | none => if k = k' then some v else none := by
  induction l with
  | nil =>
    rw [List.nil_append, lookupA_cons, lookupA_nil]
  | cons p ps ih =>
    rw [List.cons_append, lookupA_cons, lookupA_cons]
    by_cases hp : p.1 = k'
    · simp [hp]
    · rw [if_neg hp, if_neg hp]
      exact ih

lemma lookupA_none_not_find (l : List (String × α)) (k : String)
    (h : ¬ ((l.find? fun p => p.1 == k).isSome = true)) : lookupA l k = none := by
  rcases he : lookupA l k with _ | w
  · rfl
  · exfalso
    apply h
    simp only [lookupA] at he
    rcases Option.map_eq_some'.mp he with ⟨q, hq, _⟩
    simp [hq]

lemma lookupA_setA (l : List (String × α)) (k k' : String) (v : α) :
    lookupA (setA l k v) k' = if k = k' then some v else lookupA l k' := by
  simp only [setA]
  split
  · next hfind =>
    by_cases hk : k = k'
    · subst hk
      rw [if_pos rfl]
      exact lookupA_replace_self l k v hfind
    · rw [if_neg hk]
      exact lookupA_replace_ne l k k' v hk
  · next hfind =>
    rw [lookupA_append_single]
    by_cases hk : k = k'
    · subst hk
      rw [lookupA_none_not_find l k hfind]
    · rcases he : lookupA l k' with _ | w
      · simp [hk]
      · simp [hk]

lemma setA_key_val (l : List (String × α)) (k : String) (v : α) :
    ∀ p ∈ setA l k v, p.1 = k → p.2 = v := by
  simp only [setA]
  split
  · next hfind =>
    intro p hp hk
    rcases List.mem_map.mp hp with ⟨q, hq, rfl⟩
    by_cases hqk : q.1 = k
    · have hb : (q.1 == k) = true := by simpa using hqk
      simp [hb]
    · have hb : (q.1 == k) = false := by simpa using hqk
      simp only [hb, Bool.false_eq_true, if_false] at hk ⊢
      exact absurd hk hqk
  · next hfind =>
    intro p hp hk
    rcases List.mem_append.mp hp with h | h
    · exfalso
      apply hfind
      exact List.find?_isSome.mpr ⟨p, h, by simpa using hk⟩
    · simp only [List.mem_singleton] at h
      rw [h]

lemma mem_setA_self (l : List (String × α)) (k : String) (v : α) :
    (k, v) ∈ setA l k v := by
  simp only [setA]
  split
  · next hfind =>
    rcases Option.isSome_iff_exists.mp hfind with ⟨q, hq⟩
    have hqm := List.mem_of_find?_eq_some hq
    have hqk : q.1 = k := by simpa using List.find?_some hq
    apply List.mem_map.mpr
    refine ⟨q, hqm, ?_⟩
    simp [hqk]
  · simp

lemma lookupA_filter_all (l : List (String × α)) (k : String) (pred : String × α → Bool)
    (h : ∀ p ∈ l, p.1 = k → pred p = true) :
    lookupA (l.filter pred) k = lookupA l k := by
  induction l with
  | nil => rfl
  | cons p ps ih =>
    have ih' := ih fun q hq => h q (List.mem_cons_of_mem _ hq)
    rw [List.filter_cons]
    by_cases hpk : p.1 = k
    · rw [if_pos (h p (by simp) hpk)]
      rw [lookupA_cons, lookupA_cons]
      simp [hpk, ih']
    · split_ifs with hpred
      · rw [lookupA_cons, lookupA_cons, if_neg hpk, if_neg hpk]
        exact ih'
      · rw [lookupA_cons, if_neg hpk]
        exact ih'

lemma lookupA_filter_none_of (l : List (String × α)) (k : String)
    (pred : String × α → Bool)
    (h : ∀ p ∈ l, p.1 = k → pred p = false) :
    lookupA (l.filter pred) k = none := by
  induction l with
  | nil => rfl
  | cons p ps ih =>
    have ih' := ih fun q hq => h q (List.mem_cons_of_mem _ hq)
    rw [List.filter_cons]
    by_cases hpk : p.1 = k
    · rw [if_neg (by simp [h p (by simp) hpk])]
      exact ih'
    · split_ifs with hpred
      · rw [lookupA_cons, if_neg hpk]
        exact ih'
      · exact ih'

lemma create_export_fresh (st : ServerState) (now : Nat) (newId k : String)
    (inp : CreateInput)
    (hsz : utf8Len inp.html ≤ MAX_HTML_SIZE)
    (hk : lookupA (cleanup_expired_tasks st now).idempotency_records k = none) :
    create_export st now newId (some k) inp =
      (.created newId,
       { export_tasks :=
           setA (cleanup_expired_tasks st now).export_tasks newId (newTask newId now inp),
         idempotency_records :=
           setA (cleanup_expired_tasks st now).idempotency_records k newId }) := by
  simp only [create_export]
  rw [if_neg (by omega)]
  simp [hk]

lemma create_export_hit (st : ServerState) (now : Nat) (newId k tid : String)
    (task : ExportTask) (inp : CreateInput)
    (hsz : utf8Len inp.html ≤ MAX_HTML_SIZE)
    (hk : lookupA (cleanup_expired_tasks st now).idempotency_records k = some tid)
    (ht : lookupA (cleanup_expired_tasks st now).export_tasks tid = some task)
    (hlive : now ≤ task.expires_at) :
    create_export st now newId (some k) inp =
      (.existing task.id, cleanup_expired_tasks st now) := by
  simp only [create_export]
  rw [if_neg (by omega)]
  simp [hk, ht, hlive]

lemma cleanup_tasks_lookup_live (st : ServerState) (now : Nat) (tid : String)
    (task : ExportTask)
    (hall : ∀ p ∈ st.export_tasks, p.1 = tid → p.2 = task)
    (hlive : ¬ task.expires_at < now) :
    lookupA (cleanup_expired_tasks st now).export_tasks tid =
      lookupA st.export_tasks tid := by
  apply lookupA_filter_all
  intro p hp hk
  rw [hall p hp hk]
  simpa using hlive

lemma cleanup_tasks_lookup_dead (st : ServerState) (now : Nat) (tid : String)
    (task : ExportTask)
    (hall : ∀ p ∈ st.export_tasks, p.1 = tid → p.2 = task)
    (hdead : task.expires_at < now) :
    lookupA (cleanup_expired_tasks st now).export_tasks tid = none := by
  apply lookupA_filter_none_of
  intro p hp hk
  rw [hall p hp hk]
  simpa using hdead

lemma cleanup_idem_lookup_live (st : ServerState) (now : Nat) (k tid : String)
    (task : ExportTask)
    (hallk : ∀ p ∈ st.idempotency_records, p.1 = k → p.2 = tid)
    (halltid : ∀ p ∈ st.export_tasks, p.1 = tid → p.2 = task)
    (hlive : ¬ task.expires_at < now) :
    lookupA (cleanup_expired_tasks st now).idempotency_records k =
      lookupA st.idempotency_records k := by
  apply lookupA_filter_all
  intro p hp hk
  rw [hallk p hp hk]
  simp only [Bool.not_eq_true']
  rw [← Bool.not_eq_true]
  intro hc
  have hmem : tid ∈ (st.export_tasks.filter fun q => q.2.expires_at < now).map
      fun q => q.1 := List.elem_iff.mp hc
  rcases List.mem_map.mp hmem with ⟨q, hq, hq1⟩
  have hqf := List.mem_filter.mp hq
  have hq2 := halltid q hqf.1 hq1
  rw [hq2] at hqf
  exact hlive (by simpa using hqf.2)

lemma cleanup_idem_lookup_dead (st : ServerState) (now : Nat) (k tid : String)
    (task : ExportTask)
    (hallk : ∀ p ∈ st.idempotency_records, p.1 = k → p.2 = tid)
    (hmem : (tid, task) ∈ st.export_tasks)
    (hdead : task.expires_at < now) :
    lookupA (cleanup_expired_tasks st now).idempotency_records k = none := by
  apply lookupA_filter_none_of
  intro p hp hk
  rw [hallk p hp hk]
  simp only [Bool.not_eq_false']
  apply List.elem_iff.mpr
  apply List.mem_map.mpr
  exact ⟨(tid, task), List.mem_filter.mpr ⟨hmem, by simpa using hdead⟩, rfl⟩

/-- C5: with the same idempotency key, a second creation arriving before the
first task's expiry returns the first task's id and creates no second task
(the store equals the post-sweep store); a creation arriving after the
first task's expiry purges the stale task and mapping and creates a fresh
task under a new id. -/
theorem C5_idempotent_creation (st0 : ServerState) (now1 now2 now3 : Nat)
    (k id1 id2 : String) (inp1 inp2 inp3 : CreateInput)
    (hs1 : utf8Len inp1.html ≤ MAX_HTML_SIZE)
    (hs2 : utf8Len inp2.html ≤ MAX_HTML_SIZE)
    (hs3 : utf8Len inp3.html ≤ MAX_HTML_SIZE)
    (hk0 : lookupA (cleanup_expired_tasks st0 now1).idempotency_records k = none)
    (hb : now2 ≤ now1 + EXPORT_EXPIRY_SECONDS)
    (hafter : now1 + EXPORT_EXPIRY_SECONDS < now3)
    (hfresh : id2 ≠ id1) :
    (create_export st0 now1 id1 (some k) inp1).1 = .created id1 ∧
    ((create_export (create_export st0 now1 id1 (some k) inp1).2 now2 id2
        (some k) inp2).1 = .existing id1 ∧
      (create_export (create_export st0 now1 id1 (some k) inp1).2 now2 id2
        (some k) inp2).2.export_tasks =
        (cleanup_expired_tasks (create_export st0 now1 id1 (some k) inp1).2
          now2).export_tasks) ∧
    ((create_export (create_export st0 now1 id1 (some k) inp1).2 now3 id2
        (some k) inp3).1 = .created id2 ∧
      lookupA (create_export (create_export st0 now1 id1 (some k) inp1).2 now3 id2
        (some k) inp3).2.idempotency_records k = some id2 ∧
      lookupA (create_export (create_export st0 now1 id1 (some k) inp1).2 now3 id2
        (some k) inp3).2.export_tasks id1 = none) := by
  have h1 := create_export_fresh st0 now1 id1 k inp1 hs1 hk0
  simp only [h1]
  set st1 : ServerState :=
    { export_tasks :=
        setA (cleanup_expired_tasks st0 now1).export_tasks id1 (newTask id1 now1 inp1),
      idempotency_records :=
        setA (cleanup_expired_tasks st0 now1).idempotency_records k id1 } with hst1
  have hallk : ∀ p ∈ st1.idempotency_records, p.1 = k → p.2 = id1 := setA_key_val _ _ _
  have halltid : ∀ p ∈ st1.export_tasks, p.1 = id1 → p.2 = newTask id1 now1 inp1 :=
    setA_key_val _ _ _
  have hexp : (newTask id1 now1 inp1).expires_at = now1 + EXPORT_EXPIRY_SECONDS := rfl
  refine ⟨trivial, ?_, ?_⟩
  · have hlive : ¬ (newTask id1 now1 inp1).expires_at < now2 := by rw [hexp]; omega
    have hkl : lookupA (cleanup_expired_tasks st1 now2).idempotency_records k =
        some id1 := by
      rw [cleanup_idem_lookup_live st1 now2 k id1 (newTask id1 now1 inp1) hallk halltid hlive]
      show lookupA (setA (cleanup_expired_tasks st0 now1).idempotency_records k id1) k =
        some id1
      rw [lookupA_setA]
      simp
    have htl : lookupA (cleanup_expired_tasks st1 now2).export_tasks id1 =
        some (newTask id1 now1 inp1) := by
      rw [cleanup_tasks_lookup_live st1 now2 id1 (newTask id1 now1 inp1) halltid hlive]
      show lookupA (setA (cleanup_expired_tasks st0 now1).export_tasks id1
        (newTask id1 now1 inp1)) id1 = some (newTask id1 now1 inp1)
      rw [lookupA_setA]
      simp
    have h2 := create_export_hit st1 now2 id2 k id1 (newTask id1 now1 inp1) inp2 hs2 hkl htl
      (by rw [hexp]; omega)
    rw [h2]
    exact ⟨rfl, rfl⟩
  · have hdead : (newTask id1 now1 inp1).expires_at < now3 := by rw [hexp]; omega
    have hkl3 : lookupA (cleanup_expired_tasks st1 now3).idempotency_records k = none :=
      cleanup_idem_lookup_dead st1 now3 k id1 (newTask id1 now1 inp1) hallk
        (mem_setA_self _ _ _) hdead
    have h3 := create_export_fresh st1 now3 id2 k inp3 hs3 hkl3
    rw [h3]
    refine ⟨rfl, ?_, ?_⟩
    · show lookupA (setA (cleanup_expired_tasks st1 now3).idempotency_records k id2) k =
        some id2
      rw [lookupA_setA]
      simp
    · show lookupA (setA (cleanup_expired_tasks st1 now3).export_tasks id2
        (newTask id2 now3 inp3)) id1 = none
      rw [lookupA_setA, if_neg hfresh]
      exact cleanup_tasks_lookup_dead st1 now3 id1 (newTask id1 now1 inp1) halltid hdead

/-- C5 witness: the three-call scenario at concrete times, ids and inputs
starting from the empty store. -/
theorem C5_idempotent_creation_witness :
    (create_export {} 0 "exp_a" (some "key1") { html := "<p>x</p>" }).1 =
      .created "exp_a" ∧
    ((create_export (create_export {} 0 "exp_a" (some "key1") { html := "<p>x</p>" }).2
        10 "exp_b" (some "key1") { html := "<p>y</p>" }).1 = .existing "exp_a" ∧
      (create_export (create_export {} 0 "exp_a" (some "key1") { html := "<p>x</p>" }).2
        10 "exp_b" (some "key1") { html := "<p>y</p>" }).2.export_tasks =
        (cleanup_expired_tasks
          (create_export {} 0 "exp_a" (some "key1") { html := "<p>x</p>" }).2
          10).export_tasks) ∧
    ((create_export (create_export {} 0 "exp_a" (some "key1") { html := "<p>x</p>" }).2
        9999 "exp_b" (some "key1") { html := "<p>z</p>" }).1 = .created "exp_b" ∧
      lookupA (create_export
        (create_export {} 0 "exp_a" (some "key1") { html := "<p>x</p>" }).2
        9999 "exp_b" (some "key1") { html := "<p>z</p>" }).2.idempotency_records "key1" =
        some "exp_b" ∧
      lookupA (create_export
        (create_export {} 0 "exp_a" (some "key1") { html := "<p>x</p>" }).2
        9999 "exp_b" (some "key1") { html := "<p>z</p>" }).2.export_tasks "exp_a" =
        none) := by
  exact C5_idempotent_creation {} 0 10 9999 "key1" "exp_a" "exp_b"
    { html := "<p>x</p>" } { html := "<p>y</p>" } { html := "<p>z</p>" }
    (by decide) (by decide) (by decide) rfl (by decide) (by decide) (by decide)

end BlogUeditor
